import Mathlib

/-!
Verification development for the Windows native-menu core
(`src/platform/windows/menu.rs` of the `betrayer` repository).

The Rust source is shallowly embedded as pure Lean functions over an
explicit world state.  Native Win32 calls (`CreatePopupMenu`,
`AppendMenuW`, `SetMenuItemInfoW`, `GetMenuItemCount`, `DeleteObject`,
`DestroyMenu`) and the external icon resolver (`NativeIcon::to_bitmap`)
are fallible external calls: their success or failure is decided by an
`Oracle`, a function from the call descriptor and the global call index
to a failure bit.  The world records every native call made (with its
index and outcome), the set of created popup menus with their item
counts, fresh-handle counters, and the log messages emitted.
-/

namespace Betrayer

/-- Win32 menu flag constant `MF_STRING` (from `windows_sys`). -/
def MF_STRING : Nat := 0x0

/-- Win32 menu flag constant `MF_GRAYED` (from `windows_sys`). -/
def MF_GRAYED : Nat := 0x1

/-- Win32 menu flag constant `MF_CHECKED` (from `windows_sys`). -/
def MF_CHECKED : Nat := 0x8

/-- Win32 menu flag constant `MF_POPUP` (from `windows_sys`). -/
def MF_POPUP : Nat := 0x10

/-- Win32 menu flag constant `MF_SEPARATOR` (from `windows_sys`). -/
def MF_SEPARATOR : Nat := 0x800

/-- An abstract icon description (`Icon` / `NativeIcon` of the crate,
external to this file's source); only its identity matters here, so it is
a number.  The `Icon -> NativeIcon` conversion (`icon.into()`) is the
identity in this model. -/
abbrev NativeIcon := Nat

/-- `MenuItem<T>` from the crate facade: separator, button leaf, or
submenu.  `signal` is the opaque application value. -/
inductive MenuItem (T : Type) where
  | separator : MenuItem T
  | button (name : String) (signal : T) (disabled : Bool)
      (checked : Option Bool) (icon : Option NativeIcon) : MenuItem T
  | menu (name : String) (children : List (MenuItem T))
      (icon : Option NativeIcon) : MenuItem T
deriving Repr

/-- `Menu<T>`: the root wrapper holding the ordered items. -/
structure Menu (T : Type) where
  items : List (MenuItem T)
deriving Repr

/-- Modelled from the spec: the error taxonomy is "a single category of
`native call failed` error, wrapping the OS-reported status code, produced
by a centralized result-checking helper" (`TrayError` / `error_check` live
outside the provided source file).  The wrapped code is modelled as the
index of the failing native call. -/
inductive TrayError where
  | win32 (code : Nat) : TrayError
deriving Repr, DecidableEq

/-- Descriptor of one native (or icon-resolver) call, as the outside world
sees it.  `resolveIcon` and `setMenuItemInfo` carry the `by_position` flag
of the enclosing `set_menu_icon` call, distinguishing button-icon
(`byPos = false`) from submenu-icon (`byPos = true`) attachment. -/
inductive NativeCall where
  | createPopupMenu : NativeCall
  | appendMenu (hmenu : Nat) (flags : Nat) (id : Nat) (name : Option String) : NativeCall
  | resolveIcon (byPos : Bool) (icon : NativeIcon) : NativeCall
  | setMenuItemInfo (hmenu : Nat) (item : Nat) (byPos : Bool) (bitmap : Nat) : NativeCall
  | getMenuItemCount (hmenu : Nat) : NativeCall
  | deleteObject (bitmap : Nat) : NativeCall
  | destroyMenu (hmenu : Nat) : NativeCall
deriving Repr, DecidableEq

/-- One recorded native call: descriptor, global call index, outcome. -/
structure NEvent where
  call : NativeCall
  idx : Nat
  ok : Bool
deriving Repr, DecidableEq

/-- The log messages the source can emit (`log::trace!` / `log::warn!` /
`log::debug!`). -/
inductive LogMsg where
  | creatingNativeMenu : LogMsg
  | destroyingNativeMenu : LogMsg
  | failedDestroyBitmap : LogMsg
  | failedDestroyMenu : LogMsg
  | failedSetSubmenuIcon : LogMsg
deriving Repr, DecidableEq

/-- Decides the outcome of each external call: `o c i = true` means the
call with descriptor `c`, made as the `i`-th external call overall,
fails. -/
abbrev Oracle := NativeCall → Nat → Bool

/-- The state of the native windowing world as this core can observe it:
created popup menus with their current item counts, fresh handle
counters, the global call counter, the full trace of external calls and
the log. -/
structure World where
  menus : List (Nat × Nat)
  nextMenu : Nat
  nextBitmap : Nat
  callIdx : Nat
  events : List NEvent
  logs : List LogMsg
deriving Repr

/-- Record one external call (with the next global index) in the trace. -/
def World.record (w : World) (c : NativeCall) (ok : Bool) : World :=
  { w with
    callIdx := w.callIdx + 1
    events := w.events ++ [⟨c, w.callIdx, ok⟩] }

/-- Append a log message. -/
def World.log (w : World) (m : LogMsg) : World :=
  { w with logs := w.logs ++ [m] }

/-- Increment the item count of menu `h`. -/
def bumpCount (menus : List (Nat × Nat)) (h : Nat) : List (Nat × Nat) :=
  menus.map (fun p => if p.1 = h then (p.1, p.2 + 1) else p)

/-- `error_check(CreatePopupMenu())`: on success allocates a fresh menu
handle with zero items. -/
def createPopupMenu (o : Oracle) (w : World) : Except TrayError Nat × World :=
  if o NativeCall.createPopupMenu w.callIdx then
    (Except.error (TrayError.win32 w.callIdx), w.record NativeCall.createPopupMenu false)
  else
    let h := w.nextMenu
    (Except.ok h,
      { w.record NativeCall.createPopupMenu true with
        nextMenu := w.nextMenu + 1
        menus := w.menus ++ [(h, 0)] })

/-- `error_check(AppendMenuW(hmenu, flags, id, name))`: on success appends
one entry to `hmenu`, growing its item count.  `encode_wide` (external
helper) is modelled by carrying the name itself; a separator passes a null
name pointer, modelled as `none`. -/
def appendMenu (o : Oracle) (hmenu flags id : Nat) (name : Option String)
    (w : World) : Except TrayError Unit × World :=
  let c := NativeCall.appendMenu hmenu flags id name
  if o c w.callIdx then
    (Except.error (TrayError.win32 w.callIdx), w.record c false)
  else
    (Except.ok (), { w.record c true with menus := bumpCount w.menus hmenu })

/-- Modelled from the spec: the external Icon Resolver capability
`resolve(icon_spec) -> Result<BitmapHandle, Error>` (`NativeIcon::to_bitmap`
lives outside the provided source file).  On success it returns a fresh
bitmap handle the core then owns.  `byPos` tags the call with the
`by_position` mode of the enclosing `set_menu_icon`. -/
def toBitmap (o : Oracle) (byPos : Bool) (icon : NativeIcon) (w : World) :
    Except TrayError Nat × World :=
  let c := NativeCall.resolveIcon byPos icon
  if o c w.callIdx then
    (Except.error (TrayError.win32 w.callIdx), w.record c false)
  else
    (Except.ok w.nextBitmap,
      { w.record c true with nextBitmap := w.nextBitmap + 1 })

/-- `error_check(SetMenuItemInfoW(hmenu, item, byPos, info))` with
`fMask = MIIM_BITMAP` and `hbmpItem = bitmap`. -/
def setMenuItemInfo (o : Oracle) (hmenu item : Nat) (byPos : Bool) (bitmap : Nat)
    (w : World) : Except TrayError Unit × World :=
  let c := NativeCall.setMenuItemInfo hmenu item byPos bitmap
  if o c w.callIdx then
    (Except.error (TrayError.win32 w.callIdx), w.record c false)
  else
    (Except.ok (), w.record c true)

/-- `GetMenuItemCount(hmenu)`: returns the item count, or `-1` on failure
(this call is not passed through `error_check`; the source only guards its
result with a sign test). -/
def getMenuItemCount (o : Oracle) (hmenu : Nat) (w : World) : Int × World :=
  let c := NativeCall.getMenuItemCount hmenu
  if o c w.callIdx then
    (-1, w.record c false)
  else
    (((w.menus.lookup hmenu).getD 0 : Nat), w.record c true)

/-- `fn set_menu_icon(hmenu, item_id, by_position, icon, bitmaps)`:
resolve the icon to a bitmap, attach it to the addressed entry, and only
after a successful attach push the bitmap handle onto `bitmaps`. -/
def set_menu_icon (o : Oracle) (hmenu item_id : Nat) (by_position : Bool)
    (icon : NativeIcon) (bitmaps : List Nat) (w : World) :
    Except TrayError (List Nat) × World :=
  match toBitmap o by_position icon w with
  | (Except.error e, w₁) => (Except.error e, w₁)
  | (Except.ok bitmap, w₁) =>
    match setMenuItemInfo o hmenu item_id by_position bitmap w₁ with
    | (Except.error e, w₂) => (Except.error e, w₂)
    | (Except.ok _, w₂) => (Except.ok (bitmaps ++ [bitmap]), w₂)

/-- The flags computed for a `Button` entry: `MF_STRING`, plus
`MF_CHECKED` when `checked` is `Some(true)`, plus `MF_GRAYED` when
`disabled`. -/
def buttonFlags (disabled : Bool) (checked : Option Bool) : Nat :=
  let flags := MF_STRING
  let flags := match checked with
    | some true => flags ||| MF_CHECKED
    | _ => flags
  if disabled then flags ||| MF_GRAYED else flags

/-- The button-icon step of `add_all`'s `Button` arm: when an icon is
present, resolve and attach it by id via `set_menu_icon` (fatal on
failure); when absent, do nothing. -/
def button_icon_step (o : Oracle) (hmenu menu_id : Nat) (icon : Option NativeIcon)
    (bitmaps : List Nat) (w : World) : Except TrayError (List Nat) × World :=
  match icon with
  | none => (Except.ok bitmaps, w)
  | some ic => set_menu_icon o hmenu menu_id false ic bitmaps w

/-- The submenu-icon step of `add_all`'s `Menu` arm: when an icon is
present, query the item count, and if the just-appended position is
non-negative attach the icon by position, logging (never propagating) a
failure; when absent, do nothing. -/
def submenu_icon_step (o : Oracle) (hmenu : Nat) (icon : Option NativeIcon)
    (bitmaps : List Nat) (w : World) : List Nat × World :=
  match icon with
  | none => (bitmaps, w)
  | some ic =>
    let r := getMenuItemCount o hmenu w
    let submenu_position : Int := r.1 - 1
    if 0 ≤ submenu_position then
      match set_menu_icon o hmenu submenu_position.toNat true ic bitmaps r.2 with
      | (Except.error _, w₅) => (bitmaps, w₅.log LogMsg.failedSetSubmenuIcon)
      | (Except.ok bitmaps₂, w₅) => (bitmaps₂, w₅)
    else
      (bitmaps, r.2)

/-- `fn add_all(hmenu, signals, items, bitmaps)`: the recursive
depth-first builder walk.  `signals` and `bitmaps` are the two `&mut Vec`
accumulators, threaded explicitly; the world is returned even on error
(native state survives a failed build). -/
def add_all {T : Type} (o : Oracle) (hmenu : Nat) (signals : List T)
    (items : List (MenuItem T)) (bitmaps : List Nat) (w : World) :
    Except TrayError (List T × List Nat) × World :=
  match items with
  | [] => (Except.ok (signals, bitmaps), w)
  | MenuItem.separator :: rest =>
    match appendMenu o hmenu MF_SEPARATOR 0 none w with
    | (Except.error e, w₁) => (Except.error e, w₁)
    | (Except.ok _, w₁) => add_all o hmenu signals rest bitmaps w₁
  | MenuItem.button name signal disabled checked icon :: rest =>
    match appendMenu o hmenu (buttonFlags disabled checked) signals.length (some name) w with
    | (Except.error e, w₁) => (Except.error e, w₁)
    | (Except.ok _, w₁) =>
      match button_icon_step o hmenu signals.length icon bitmaps w₁ with
      | (Except.error e, w₂) => (Except.error e, w₂)
      | (Except.ok bitmaps₁, w₂) =>
        add_all o hmenu (signals ++ [signal]) rest bitmaps₁ w₂
  | MenuItem.menu name children icon :: rest =>
    match createPopupMenu o w with
    | (Except.error e, w₁) => (Except.error e, w₁)
    | (Except.ok submenu, w₁) =>
      match add_all o submenu signals children bitmaps w₁ with
      | (Except.error e, w₂) => (Except.error e, w₂)
      | (Except.ok (signals₁, bitmaps₁), w₂) =>
        match appendMenu o hmenu MF_POPUP submenu (some name) w₂ with
        | (Except.error e, w₃) => (Except.error e, w₃)
        | (Except.ok _, w₃) =>
          match submenu_icon_step o hmenu icon bitmaps₁ w₃ with
          | (bitmaps₂, w₄) => add_all o hmenu signals₁ rest bitmaps₂ w₄

/-- `struct NativeMenu`: the assembled handle.  The type-erased
`Box<dyn SignalMap>` is backed by the `Vec<T>` of signals, modelled as the
list directly. -/
structure NativeMenu (T : Type) where
  hmenu : Nat
  signals : List T
  bitmaps : List Nat
deriving Repr

/-- `impl TryFrom<Menu<T>> for NativeMenu`: create the top-level popup
menu, run the builder walk, assemble the handle. -/
def NativeMenu.tryFrom {T : Type} (o : Oracle) (m : Menu T) (w : World) :
    Except TrayError (NativeMenu T) × World :=
  let w := w.log LogMsg.creatingNativeMenu
  match createPopupMenu o w with
  | (Except.error e, w₁) => (Except.error e, w₁)
  | (Except.ok hmenu, w₁) =>
    match add_all o hmenu [] m.items [] w₁ with
    | (Except.error e, w₂) => (Except.error e, w₂)
    | (Except.ok (signals, bitmaps), w₂) =>
      (Except.ok ⟨hmenu, signals, bitmaps⟩, w₂)

/-- `NativeMenu::map(id: u16)` through `impl SignalMap for Vec<T>`:
`self.get(id as usize)`.  The `u16` parameter is embedded as
`Fin 65536`. -/
def NativeMenu.map {T : Type} (nm : NativeMenu T) (id : Fin 65536) : Option T :=
  nm.signals.get? id.val

/-- One iteration of the `Drop` loop: `error_check(DeleteObject(bitmap))`,
logging (never propagating) a failure. -/
def deleteBitmapStep (o : Oracle) (w : World) (b : Nat) : World :=
  let c := NativeCall.deleteObject b
  if o c w.callIdx then
    (w.record c false).log LogMsg.failedDestroyBitmap
  else
    w.record c true

/-- `impl Drop for NativeMenu`: destroy every recorded bitmap handle, then
the top-level menu handle, logging (never propagating) each failure. -/
def NativeMenu.drop {T : Type} (o : Oracle) (nm : NativeMenu T) (w : World) : World :=
  let w := w.log LogMsg.destroyingNativeMenu
  let w := nm.bitmaps.foldl (deleteBitmapStep o) w
  let c := NativeCall.destroyMenu nm.hmenu
  if o c w.callIdx then
    (w.record c false).log LogMsg.failedDestroyMenu
  else
    w.record c true

/-- The initial native world: no menus, handles counted from their bases,
empty trace. -/
def World.init : World := ⟨[], 1000000, 5000000, 0, [], []⟩

/-! ## Specification-side definitions

These are written from the spec's words, independently of `add_all`, for
comparison with what the builder produces. -/

/-- The tree's `Button` leaf signals flattened in depth-first
left-to-right order (spec §8). -/
def flattenSignals {T : Type} : List (MenuItem T) → List T
  | [] => []
  | MenuItem.separator :: rest => flattenSignals rest
  | MenuItem.button _ signal _ _ _ :: rest => signal :: flattenSignals rest
  | MenuItem.menu _ children _ :: rest =>
    flattenSignals children ++ flattenSignals rest

/-- The number of `Button` leaves of the tree (spec §8: separators and
submenus contribute zero). -/
def countButtons {T : Type} : List (MenuItem T) → Nat
  | [] => 0
  | MenuItem.separator :: rest => countButtons rest
  | MenuItem.button _ _ _ _ _ :: rest => countButtons rest + 1
  | MenuItem.menu _ children _ :: rest =>
    countButtons children + countButtons rest

/-- The id of a successful `AppendMenuW` call that appends a button entry
(a named entry that is neither a separator nor a popup), if `e` is one. -/
def NEvent.buttonAppendId (e : NEvent) : Option Nat :=
  match e with
  | ⟨NativeCall.appendMenu _ flags id (some _), _, true⟩ =>
    if flags &&& (MF_POPUP ||| MF_SEPARATOR) = 0 then some id else none
  | _ => none

/-- The ids of the button entries appended by a trace, in call order. -/
def buttonIds (evs : List NEvent) : List Nat :=
  evs.filterMap NEvent.buttonAppendId

/-- A button-icon call: icon resolution or attachment with
`by_position = false` (the fatal-on-failure mode). -/
def NativeCall.isButtonIconCall : NativeCall → Bool
  | NativeCall.resolveIcon false _ => true
  | NativeCall.setMenuItemInfo _ _ false _ => true
  | _ => false

/-- A submenu-icon-path call: icon resolution or attachment with
`by_position = true`, or the item-count query guarding it (the
non-fatal-on-failure calls). -/
def NativeCall.isSubmenuIconCall : NativeCall → Bool
  | NativeCall.resolveIcon true _ => true
  | NativeCall.setMenuItemInfo _ _ true _ => true
  | NativeCall.getMenuItemCount _ => true
  | _ => false

/-- A destruction call (`DeleteObject` or `DestroyMenu`). -/
def NativeCall.isDestroyCall : NativeCall → Bool
  | NativeCall.deleteObject _ => true
  | NativeCall.destroyMenu _ => true
  | _ => false

/-- `e` is a successful attachment of bitmap `b` to some menu item. -/
def NEvent.attachesBitmap (e : NEvent) (b : Nat) : Bool :=
  match e.call with
  | NativeCall.setMenuItemInfo _ _ _ b' => b' == b && e.ok
  | _ => false

/-! ## Basic lemmas about the spec-side definitions and the primitives -/

theorem flattenSignals_length {T : Type} :
    ∀ items : List (MenuItem T), (flattenSignals items).length = countButtons items
  | [] => by simp [flattenSignals, countButtons]
  | MenuItem.separator :: rest => by
    simp [flattenSignals, countButtons, flattenSignals_length rest]
  | MenuItem.button _ _ _ _ _ :: rest => by
    simp [flattenSignals, countButtons, flattenSignals_length rest]
  | MenuItem.menu _ children _ :: rest => by
    simp [flattenSignals, countButtons, flattenSignals_length children,
      flattenSignals_length rest]

theorem buttonFlags_mask (disabled : Bool) (checked : Option Bool) :
    buttonFlags disabled checked &&& (MF_POPUP ||| MF_SEPARATOR) = 0 := by
  rcases checked with _ | c
  · cases disabled <;> decide
  · cases c <;> cases disabled <;> decide

theorem buttonIds_append (l₁ l₂ : List NEvent) :
    buttonIds (l₁ ++ l₂) = buttonIds l₁ ++ buttonIds l₂ := by
  simp [buttonIds]

theorem createPopupMenu_ok {o : Oracle} {w : World} {h : Nat} {w' : World}
    (H : createPopupMenu o w = (Except.ok h, w')) :
    w'.events = w.events ++ [⟨NativeCall.createPopupMenu, w.callIdx, true⟩] ∧
    w'.nextBitmap = w.nextBitmap := by
  by_cases hc : o NativeCall.createPopupMenu w.callIdx = true
  · simp [createPopupMenu, hc] at H
  · simp [createPopupMenu, hc, World.record] at H
    obtain ⟨h1, h2⟩ := H
    subst h2
    simp

theorem createPopupMenu_err {o : Oracle} {w : World} {e : TrayError} {w' : World}
    (H : createPopupMenu o w = (Except.error e, w')) :
    w'.events = w.events ++ [⟨NativeCall.createPopupMenu, w.callIdx, false⟩] ∧
    e = TrayError.win32 w.callIdx ∧ o NativeCall.createPopupMenu w.callIdx = true := by
  by_cases hc : o NativeCall.createPopupMenu w.callIdx = true
  · simp [createPopupMenu, hc, World.record] at H
    obtain ⟨h1, h2⟩ := H
    subst h2
    refine ⟨by simp, ?_, hc⟩
    rw [h1]
  · simp [createPopupMenu, hc] at H

theorem appendMenu_ok {o : Oracle} {hm f i : Nat} {n : Option String} {w : World}
    {a : Unit} {w' : World} (H : appendMenu o hm f i n w = (Except.ok a, w')) :
    w'.events = w.events ++ [⟨NativeCall.appendMenu hm f i n, w.callIdx, true⟩] ∧
    w'.nextBitmap = w.nextBitmap := by
  by_cases hc : o (NativeCall.appendMenu hm f i n) w.callIdx = true
  · simp [appendMenu, hc] at H
  · simp [appendMenu, hc, World.record] at H
    subst H
    simp

theorem appendMenu_err {o : Oracle} {hm f i : Nat} {n : Option String} {w : World}
    {e : TrayError} {w' : World} (H : appendMenu o hm f i n w = (Except.error e, w')) :
    w'.events = w.events ++ [⟨NativeCall.appendMenu hm f i n, w.callIdx, false⟩] ∧
    e = TrayError.win32 w.callIdx ∧
    o (NativeCall.appendMenu hm f i n) w.callIdx = true := by
  by_cases hc : o (NativeCall.appendMenu hm f i n) w.callIdx = true
  · simp [appendMenu, hc, World.record] at H
    obtain ⟨h1, h2⟩ := H
    subst h2
    refine ⟨by simp, ?_, hc⟩
    rw [h1]
  · simp [appendMenu, hc] at H

theorem toBitmap_ok {o : Oracle} {bp : Bool} {ic : NativeIcon} {w : World}
    {bm : Nat} {w' : World} (H : toBitmap o bp ic w = (Except.ok bm, w')) :
    bm = w.nextBitmap ∧
    w'.events = w.events ++ [⟨NativeCall.resolveIcon bp ic, w.callIdx, true⟩] ∧
    w'.nextBitmap = w.nextBitmap + 1 ∧ w'.callIdx = w.callIdx + 1 := by
  by_cases hc : o (NativeCall.resolveIcon bp ic) w.callIdx = true
  · simp [toBitmap, hc] at H
  · simp [toBitmap, hc, World.record] at H
    obtain ⟨h1, h2⟩ := H
    subst h2
    simp [h1.symm]

theorem toBitmap_err {o : Oracle} {bp : Bool} {ic : NativeIcon} {w : World}
    {e : TrayError} {w' : World} (H : toBitmap o bp ic w = (Except.error e, w')) :
    w'.events = w.events ++ [⟨NativeCall.resolveIcon bp ic, w.callIdx, false⟩] ∧
    w'.nextBitmap = w.nextBitmap ∧ e = TrayError.win32 w.callIdx ∧
    o (NativeCall.resolveIcon bp ic) w.callIdx = true := by
  by_cases hc : o (NativeCall.resolveIcon bp ic) w.callIdx = true
  · simp [toBitmap, hc, World.record] at H
    obtain ⟨h1, h2⟩ := H
    subst h2
    refine ⟨by simp, by simp, ?_, hc⟩
    rw [h1]
  · simp [toBitmap, hc] at H

theorem setMenuItemInfo_ok {o : Oracle} {hm item : Nat} {bp : Bool} {bm : Nat}
    {w : World} {a : Unit} {w' : World}
    (H : setMenuItemInfo o hm item bp bm w = (Except.ok a, w')) :
    w'.events = w.events ++
      [⟨NativeCall.setMenuItemInfo hm item bp bm, w.callIdx, true⟩] ∧
    w'.nextBitmap = w.nextBitmap := by
  by_cases hc : o (NativeCall.setMenuItemInfo hm item bp bm) w.callIdx = true
  · simp [setMenuItemInfo, hc] at H
  · simp [setMenuItemInfo, hc, World.record] at H
    subst H
    simp

theorem setMenuItemInfo_err {o : Oracle} {hm item : Nat} {bp : Bool} {bm : Nat}
    {w : World} {e : TrayError} {w' : World}
    (H : setMenuItemInfo o hm item bp bm w = (Except.error e, w')) :
    w'.events = w.events ++
      [⟨NativeCall.setMenuItemInfo hm item bp bm, w.callIdx, false⟩] ∧
    w'.nextBitmap = w.nextBitmap ∧ e = TrayError.win32 w.callIdx ∧
    o (NativeCall.setMenuItemInfo hm item bp bm) w.callIdx = true := by
  by_cases hc : o (NativeCall.setMenuItemInfo hm item bp bm) w.callIdx = true
  · simp [setMenuItemInfo, hc, World.record] at H
    obtain ⟨h1, h2⟩ := H
    subst h2
    refine ⟨by simp, by simp, ?_, hc⟩
    rw [h1]
  · simp [setMenuItemInfo, hc] at H

theorem set_menu_icon_ok {o : Oracle} {hm item : Nat} {bp : Bool} {ic : NativeIcon}
    {bms : List Nat} {w : World} {bms' : List Nat} {w' : World}
    (H : set_menu_icon o hm item bp ic bms w = (Except.ok bms', w')) :
    bms' = bms ++ [w.nextBitmap] ∧
    w'.events = w.events ++
      [⟨NativeCall.resolveIcon bp ic, w.callIdx, true⟩,
       ⟨NativeCall.setMenuItemInfo hm item bp w.nextBitmap, w.callIdx + 1, true⟩] ∧
    w'.nextBitmap = w.nextBitmap + 1 := by
  unfold set_menu_icon at H
  rcases h1 : toBitmap o bp ic w with ⟨r1, w₁⟩
  rw [h1] at H
  cases r1 with
  | error e1 => simp at H
  | ok bm =>
    dsimp only at H
    rcases h2 : setMenuItemInfo o hm item bp bm w₁ with ⟨r2, w₂⟩
    rw [h2] at H
    cases r2 with
    | error e2 => simp at H
    | ok a =>
      dsimp only at H
      obtain ⟨hbm, hev₁, hnb₁, hci₁⟩ := toBitmap_ok h1
      obtain ⟨hev₂, hnb₂⟩ := setMenuItemInfo_ok h2
      simp only [Prod.mk.injEq, Except.ok.injEq] at H
      obtain ⟨hb, hw⟩ := H
      subst hw
      subst hb
      subst hbm
      simp [hev₂, hev₁, hnb₂, hnb₁, hci₁]

theorem set_menu_icon_err {o : Oracle} {hm item : Nat} {bp : Bool} {ic : NativeIcon}
    {bms : List Nat} {w : World} {e : TrayError} {w' : World}
    (H : set_menu_icon o hm item bp ic bms w = (Except.error e, w')) :
    (w'.events = w.events ++ [⟨NativeCall.resolveIcon bp ic, w.callIdx, false⟩] ∧
      w'.nextBitmap = w.nextBitmap ∧ e = TrayError.win32 w.callIdx ∧
      o (NativeCall.resolveIcon bp ic) w.callIdx = true) ∨
    (w'.events = w.events ++
        [⟨NativeCall.resolveIcon bp ic, w.callIdx, true⟩,
         ⟨NativeCall.setMenuItemInfo hm item bp w.nextBitmap, w.callIdx + 1, false⟩] ∧
      w'.nextBitmap = w.nextBitmap + 1 ∧ e = TrayError.win32 (w.callIdx + 1) ∧
      o (NativeCall.setMenuItemInfo hm item bp w.nextBitmap) (w.callIdx + 1) = true) := by
  unfold set_menu_icon at H
  rcases h1 : toBitmap o bp ic w with ⟨r1, w₁⟩
  rw [h1] at H
  cases r1 with
  | error e1 =>
    dsimp only at H
    simp only [Prod.mk.injEq, Except.error.injEq] at H
    obtain ⟨he, hw⟩ := H
    subst hw
    subst he
    obtain ⟨hev, hnb, he, hc⟩ := toBitmap_err h1
    exact Or.inl ⟨hev, hnb, he, hc⟩
  | ok bm =>
    dsimp only at H
    rcases h2 : setMenuItemInfo o hm item bp bm w₁ with ⟨r2, w₂⟩
    rw [h2] at H
    cases r2 with
    | ok a => simp at H
    | error e2 =>
      dsimp only at H
      simp only [Prod.mk.injEq, Except.error.injEq] at H
      obtain ⟨he, hw⟩ := H
      subst hw
      subst he
      obtain ⟨hbm, hev₁, hnb₁, hci₁⟩ := toBitmap_ok h1
      obtain ⟨hev₂, hnb₂, he₂, hc₂⟩ := setMenuItemInfo_err h2
      subst hbm
      refine Or.inr ⟨?_, ?_, ?_, ?_⟩
      · rw [hev₂, hev₁, hci₁]
        simp
      · rw [hnb₂, hnb₁]
      · rw [he₂, hci₁]
      · rw [hci₁] at hc₂
        exact hc₂

theorem getMenuItemCount_spec (o : Oracle) (hm : Nat) (w : World) :
    ∃ ok : Bool,
      (getMenuItemCount o hm w).2.events =
        w.events ++ [⟨NativeCall.getMenuItemCount hm, w.callIdx, ok⟩] ∧
      (getMenuItemCount o hm w).2.nextBitmap = w.nextBitmap := by
  by_cases hc : o (NativeCall.getMenuItemCount hm) w.callIdx = true
  · exact ⟨false, by simp [getMenuItemCount, hc, World.record]⟩
  · exact ⟨true, by simp [getMenuItemCount, hc, World.record]⟩

theorem log_events (w : World) (m : LogMsg) :
    (w.log m).events = w.events ∧ (w.log m).nextBitmap = w.nextBitmap := by
  simp [World.log]

theorem getMenuItemCount_eq {o : Oracle} {hm : Nat} {w : World} {cnt : Int}
    {w' : World} (H : getMenuItemCount o hm w = (cnt, w')) :
    ∃ ok : Bool,
      w'.events = w.events ++ [⟨NativeCall.getMenuItemCount hm, w.callIdx, ok⟩] ∧
      w'.nextBitmap = w.nextBitmap := by
  by_cases hc : o (NativeCall.getMenuItemCount hm) w.callIdx = true
  · refine ⟨false, ?_⟩
    simp [getMenuItemCount, hc, World.record] at H
    obtain ⟨-, h2⟩ := H
    subst h2
    simp
  · refine ⟨true, ?_⟩
    simp [getMenuItemCount, hc, World.record] at H
    obtain ⟨-, h2⟩ := H
    subst h2
    simp

/-- Induction over lists of menu items, recursing into submenu children. -/
theorem menuList_ind {T : Type} (P : List (MenuItem T) → Prop) (h0 : P [])
    (hsep : ∀ rest, P rest → P (MenuItem.separator :: rest))
    (hbtn : ∀ n s d c ic rest, P rest → P (MenuItem.button n s d c ic :: rest))
    (hmen : ∀ n children ic rest, P children → P rest →
      P (MenuItem.menu n children ic :: rest)) :
    ∀ items, P items
  | [] => h0
  | MenuItem.separator :: rest =>
    hsep rest (menuList_ind P h0 hsep hbtn hmen rest)
  | MenuItem.button n s d c ic :: rest =>
    hbtn n s d c ic rest (menuList_ind P h0 hsep hbtn hmen rest)
  | MenuItem.menu n children ic :: rest =>
    hmen n children ic rest (menuList_ind P h0 hsep hbtn hmen children)
      (menuList_ind P h0 hsep hbtn hmen rest)

theorem range'_append_1 (s m n : Nat) :
    List.range' s m ++ List.range' (s + m) n = List.range' s (m + n) := by
  have h := List.range'_append s m n 1
  simp only [one_mul] at h
  rw [h, Nat.add_comm]

theorem buttonIds_cons_none {e : NEvent} (l : List NEvent)
    (h : NEvent.buttonAppendId e = none) : buttonIds (e :: l) = buttonIds l := by
  simp [buttonIds, List.filterMap_cons, h]

theorem buttonIds_cons_some {e : NEvent} {i : Nat} (l : List NEvent)
    (h : NEvent.buttonAppendId e = some i) :
    buttonIds (e :: l) = i :: buttonIds l := by
  simp [buttonIds, List.filterMap_cons, h]

theorem buttonAppendId_button (hm : Nat) (d : Bool) (c : Option Bool) (i : Nat)
    (nm : String) (idx : Nat) :
    NEvent.buttonAppendId ⟨NativeCall.appendMenu hm (buttonFlags d c) i (some nm), idx, true⟩ =
      some i := by
  simp [NEvent.buttonAppendId, buttonFlags_mask]

/-- What a successful `add_all` run guarantees: the world's trace is
extended; the signal accumulator is extended by exactly the depth-first
flattening of the buttons; the appended button entries carry the
consecutive ids starting at the accumulator's initial length; every new
bitmap is fresh, recorded only after a successful attach, and the new
bitmaps are strictly increasing; every button-icon call in the new trace
succeeded; and no destruction call appears in the new trace. -/
def OkSpec {T : Type} (signals : List T) (items : List (MenuItem T))
    (bitmaps : List Nat) (w : World) (signals' : List T) (bitmaps' : List Nat)
    (w' : World) : Prop :=
  ∃ new newb,
    w'.events = w.events ++ new ∧
    signals' = signals ++ flattenSignals items ∧
    bitmaps' = bitmaps ++ newb ∧
    buttonIds new = List.range' signals.length (countButtons items) ∧
    w.nextBitmap ≤ w'.nextBitmap ∧
    (∀ b ∈ newb, w.nextBitmap ≤ b ∧ b < w'.nextBitmap) ∧
    List.Pairwise (fun x y => x < y) newb ∧
    (∀ b ∈ newb, ∃ ev ∈ new, ev.attachesBitmap b = true) ∧
    (∀ ev ∈ new, ev.call.isButtonIconCall = true → ev.ok = true) ∧
    (∀ ev ∈ new, ev.call.isDestroyCall = false) ∧
    (∀ ev ∈ new, ev.call.isSubmenuIconCall = false → ev.ok = true)

theorem button_icon_step_ok {o : Oracle} {hm mid : Nat} {icon : Option NativeIcon}
    {bms : List Nat} {w : World} {bms' : List Nat} {w' : World}
    (H : button_icon_step o hm mid icon bms w = (Except.ok bms', w')) :
    (bms' = bms ∧ w' = w) ∨
    (∃ ic, icon = some ic ∧ bms' = bms ++ [w.nextBitmap] ∧
      w'.events = w.events ++
        [⟨NativeCall.resolveIcon false ic, w.callIdx, true⟩,
         ⟨NativeCall.setMenuItemInfo hm mid false w.nextBitmap, w.callIdx + 1, true⟩] ∧
      w'.nextBitmap = w.nextBitmap + 1) := by
  cases icon with
  | none =>
    simp only [button_icon_step, Prod.mk.injEq, Except.ok.injEq] at H
    exact Or.inl ⟨H.1.symm, H.2.symm⟩
  | some ic =>
    simp only [button_icon_step] at H
    obtain ⟨hbm, hev, hnb⟩ := set_menu_icon_ok H
    exact Or.inr ⟨ic, rfl, hbm, hev, hnb⟩

theorem button_icon_step_err {o : Oracle} {hm mid : Nat} {icon : Option NativeIcon}
    {bms : List Nat} {w : World} {e : TrayError} {w' : World}
    (H : button_icon_step o hm mid icon bms w = (Except.error e, w')) :
    ∃ ic, icon = some ic ∧
      set_menu_icon o hm mid false ic bms w = (Except.error e, w') := by
  cases icon with
  | none => simp [button_icon_step] at H
  | some ic =>
    simp only [button_icon_step] at H
    exact ⟨ic, rfl, H⟩

theorem submenu_icon_step_spec {o : Oracle} {hm : Nat} {icon : Option NativeIcon}
    {bms : List Nat} {w : World} {bms₂ : List Nat} {w₄ : World}
    (H : submenu_icon_step o hm icon bms w = (bms₂, w₄)) :
    ∃ newEv newb,
      w₄.events = w.events ++ newEv ∧
      bms₂ = bms ++ newb ∧
      buttonIds newEv = [] ∧
      w.nextBitmap ≤ w₄.nextBitmap ∧
      (∀ b ∈ newb, w.nextBitmap ≤ b ∧ b < w₄.nextBitmap) ∧
      List.Pairwise (fun x y => x < y) newb ∧
      (∀ b ∈ newb, ∃ ev ∈ newEv, ev.attachesBitmap b = true) ∧
      (∀ ev ∈ newEv, ev.call.isButtonIconCall = false) ∧
      (∀ ev ∈ newEv, ev.call.isDestroyCall = false) ∧
      (∀ ev ∈ newEv, ev.call.isSubmenuIconCall = true) := by
  cases icon with
  | none =>
    simp only [submenu_icon_step, Prod.mk.injEq] at H
    obtain ⟨h1, h2⟩ := H
    subst h1; subst h2
    exact ⟨[], [], by simp, by simp, by simp [buttonIds], le_refl _, by simp,
      by simp, by simp, by simp, by simp, by simp⟩
  | some ic =>
    simp only [submenu_icon_step] at H
    rcases hg : getMenuItemCount o hm w with ⟨cnt, wg⟩
    rw [hg] at H
    dsimp only at H
    obtain ⟨okb, hevg, hnbg⟩ := getMenuItemCount_eq hg
    by_cases hpos : (0 : Int) ≤ cnt - 1
    · rw [if_pos hpos] at H
      rcases h5 : set_menu_icon o hm (cnt - 1).toNat true ic bms wg with ⟨r5, w₅⟩
      rw [h5] at H
      cases r5 with
      | error e5 =>
        dsimp only at H
        simp only [Prod.mk.injEq] at H
        obtain ⟨h1, h2⟩ := H
        subst h1; subst h2
        rcases set_menu_icon_err h5 with ⟨hev₅, hnb₅, -, -⟩ | ⟨hev₅, hnb₅, -, -⟩
        · refine ⟨⟨NativeCall.getMenuItemCount hm, w.callIdx, okb⟩ ::
            [⟨NativeCall.resolveIcon true ic, wg.callIdx, false⟩], [], ?_, by simp,
            ?_, ?_, by simp, by simp, by simp, ?_, ?_, ?_⟩
          · simp only [World.log, hev₅, hevg]
            simp
          · simp [buttonIds, NEvent.buttonAppendId, List.filterMap_cons]
          · have h6 : (w₅.log LogMsg.failedSetSubmenuIcon).nextBitmap = w₅.nextBitmap := by
              simp [World.log]
            rw [h6, hnb₅, hnbg]
          · intro ev hev
            rcases List.mem_cons.mp hev with h | h
            · subst h; simp [NativeCall.isButtonIconCall]
            rcases List.mem_cons.mp h with h' | h'
            · subst h'; simp [NativeCall.isButtonIconCall]
            · simp at h'
          · intro ev hev
            rcases List.mem_cons.mp hev with h | h
            · subst h; simp [NativeCall.isDestroyCall]
            rcases List.mem_cons.mp h with h' | h'
            · subst h'; simp [NativeCall.isDestroyCall]
            · simp at h'
          · intro ev hev
            rcases List.mem_cons.mp hev with h | h
            · subst h; simp [NativeCall.isSubmenuIconCall]
            rcases List.mem_cons.mp h with h' | h'
            · subst h'; simp [NativeCall.isSubmenuIconCall]
            · simp at h'
        · refine ⟨⟨NativeCall.getMenuItemCount hm, w.callIdx, okb⟩ ::
            [⟨NativeCall.resolveIcon true ic, wg.callIdx, true⟩,
             ⟨NativeCall.setMenuItemInfo hm (cnt - 1).toNat true wg.nextBitmap,
               wg.callIdx + 1, false⟩], [], ?_, by simp, ?_, ?_, by simp, by simp,
            by simp, ?_, ?_, ?_⟩
          · simp only [World.log, hev₅, hevg]
            simp
          · simp [buttonIds, NEvent.buttonAppendId, List.filterMap_cons]
          · have h6 : (w₅.log LogMsg.failedSetSubmenuIcon).nextBitmap = w₅.nextBitmap := by
              simp [World.log]
            rw [h6, hnb₅, hnbg]
            omega
          · intro ev hev
            rcases List.mem_cons.mp hev with h | h
            · subst h; simp [NativeCall.isButtonIconCall]
            rcases List.mem_cons.mp h with h' | h'
            · subst h'; simp [NativeCall.isButtonIconCall]
            rcases List.mem_cons.mp h' with h'' | h''
            · subst h''; simp [NativeCall.isButtonIconCall]
            · simp at h''
          · intro ev hev
            rcases List.mem_cons.mp hev with h | h
            · subst h; simp [NativeCall.isDestroyCall]
            rcases List.mem_cons.mp h with h' | h'
            · subst h'; simp [NativeCall.isDestroyCall]
            rcases List.mem_cons.mp h' with h'' | h''
            · subst h''; simp [NativeCall.isDestroyCall]
            · simp at h''
          · intro ev hev
            rcases List.mem_cons.mp hev with h | h
            · subst h; simp [NativeCall.isSubmenuIconCall]
            rcases List.mem_cons.mp h with h' | h'
            · subst h'; simp [NativeCall.isSubmenuIconCall]
            rcases List.mem_cons.mp h' with h'' | h''
            · subst h''; simp [NativeCall.isSubmenuIconCall]
            · simp at h''
      | ok bms₅ =>
        dsimp only at H
        simp only [Prod.mk.injEq] at H
        obtain ⟨h1, h2⟩ := H
        subst h1; subst h2
        obtain ⟨hbm₅, hev₅, hnb₅⟩ := set_menu_icon_ok h5
        refine ⟨⟨NativeCall.getMenuItemCount hm, w.callIdx, okb⟩ ::
          [⟨NativeCall.resolveIcon true ic, wg.callIdx, true⟩,
           ⟨NativeCall.setMenuItemInfo hm (cnt - 1).toNat true wg.nextBitmap,
             wg.callIdx + 1, true⟩], [wg.nextBitmap], ?_, ?_, ?_, ?_, ?_, by simp,
          ?_, ?_, ?_, ?_⟩
        · rw [hev₅, hevg]
          simp
        · rw [hbm₅]
        · simp [buttonIds, NEvent.buttonAppendId, List.filterMap_cons]
        · rw [hnb₅, hnbg]
          omega
        · intro b hb
          rcases List.mem_cons.mp hb with h | h
          · subst h
            rw [hnb₅, hnbg]
            omega
          · simp at h
        · intro b hb
          rcases List.mem_cons.mp hb with h | h
          · subst h
            refine ⟨⟨NativeCall.setMenuItemInfo hm (cnt - 1).toNat true wg.nextBitmap,
                wg.callIdx + 1, true⟩, by simp, ?_⟩
            simp [NEvent.attachesBitmap]
          · simp at h
        · intro ev hev
          rcases List.mem_cons.mp hev with h | h
          · subst h; simp [NativeCall.isButtonIconCall]
          rcases List.mem_cons.mp h with h' | h'
          · subst h'; simp [NativeCall.isButtonIconCall]
          rcases List.mem_cons.mp h' with h'' | h''
          · subst h''; simp [NativeCall.isButtonIconCall]
          · simp at h''
        · intro ev hev
          rcases List.mem_cons.mp hev with h | h
          · subst h; simp [NativeCall.isDestroyCall]
          rcases List.mem_cons.mp h with h' | h'
          · subst h'; simp [NativeCall.isDestroyCall]
          rcases List.mem_cons.mp h' with h'' | h''
          · subst h''; simp [NativeCall.isDestroyCall]
          · simp at h''
        · intro ev hev
          rcases List.mem_cons.mp hev with h | h
          · subst h; simp [NativeCall.isSubmenuIconCall]
          rcases List.mem_cons.mp h with h' | h'
          · subst h'; simp [NativeCall.isSubmenuIconCall]
          rcases List.mem_cons.mp h' with h'' | h''
          · subst h''; simp [NativeCall.isSubmenuIconCall]
          · simp at h''
    · rw [if_neg hpos] at H
      simp only [Prod.mk.injEq] at H
      obtain ⟨h1, h2⟩ := H
      subst h1; subst h2
      refine ⟨[⟨NativeCall.getMenuItemCount hm, w.callIdx, okb⟩], [], ?_, by simp,
        ?_, ?_, by simp, by simp, by simp, ?_, ?_, ?_⟩
      · rw [hevg]
      · simp [buttonIds, NEvent.buttonAppendId, List.filterMap_cons]
      · rw [hnbg]
      · intro ev hev
        rcases List.mem_cons.mp hev with h | h
        · subst h; simp [NativeCall.isButtonIconCall]
        · simp at h
      · intro ev hev
        rcases List.mem_cons.mp hev with h | h
        · subst h; simp [NativeCall.isDestroyCall]
        · simp at h
      · intro ev hev
        rcases List.mem_cons.mp hev with h | h
        · subst h; simp [NativeCall.isSubmenuIconCall]
        · simp at h

theorem add_all_ok_spec {T : Type} (o : Oracle) (items : List (MenuItem T)) :
    ∀ (hmenu : Nat) (signals : List T) (bitmaps : List Nat) (w : World)
      (signals' : List T) (bitmaps' : List Nat) (w' : World),
      add_all o hmenu signals items bitmaps w = (Except.ok (signals', bitmaps'), w') →
      OkSpec signals items bitmaps w signals' bitmaps' w' := by
  induction items using menuList_ind with
  | h0 =>
    intro hmenu signals bitmaps w s' b' w' H
    simp only [add_all, Prod.mk.injEq, Except.ok.injEq] at H
    obtain ⟨⟨hs, hb⟩, hw⟩ := H
    subst hs; subst hb; subst hw
    refine ⟨[], [], by simp, by simp [flattenSignals], by simp, ?_, le_refl _,
      by simp, by simp, by simp, by simp, by simp, by simp⟩
    simp [buttonIds, countButtons]
  | hsep rest IH =>
    intro hmenu signals bitmaps w s' b' w' H
    simp only [add_all] at H
    rcases h1 : appendMenu o hmenu MF_SEPARATOR 0 none w with ⟨r1, w₁⟩
    rw [h1] at H
    cases r1 with
    | error e1 => simp at H
    | ok a =>
      dsimp only at H
      obtain ⟨new, newb, hev, hsig, hbm, hids, hmono, hbounds, hpw, hatt, hbic, hdes,
        hfat⟩ := IH hmenu signals bitmaps w₁ s' b' w' H
      obtain ⟨hev₁, hnb₁⟩ := appendMenu_ok h1
      refine ⟨⟨NativeCall.appendMenu hmenu MF_SEPARATOR 0 none, w.callIdx, true⟩ :: new,
        newb, ?_, ?_, hbm, ?_, ?_, ?_, hpw, ?_, ?_, ?_, ?_⟩
      · rw [hev, hev₁]; simp
      · rw [hsig]; simp [flattenSignals]
      · rw [buttonIds_cons_none new (by simp [NEvent.buttonAppendId]), hids]
        simp [countButtons]
      · rw [← hnb₁]; exact hmono
      · intro b hb
        have := hbounds b hb
        rw [hnb₁] at this
        exact this
      · intro b hb
        obtain ⟨ev, hev', hatt'⟩ := hatt b hb
        exact ⟨ev, List.mem_cons_of_mem _ hev', hatt'⟩
      · intro ev hev'
        rcases List.mem_cons.mp hev' with h | h
        · subst h; simp [NativeCall.isButtonIconCall]
        · exact hbic ev h
      · intro ev hev'
        rcases List.mem_cons.mp hev' with h | h
        · subst h; simp [NativeCall.isDestroyCall]
        · exact hdes ev h
      · intro ev hev'
        rcases List.mem_cons.mp hev' with h | h
        · subst h; simp
        · exact hfat ev h
  | hbtn n s d c ic rest IH =>
    intro hmenu signals bitmaps w s' b' w' H
    simp only [add_all] at H
    rcases h1 : appendMenu o hmenu (buttonFlags d c) signals.length (some n) w with ⟨r1, w₁⟩
    rw [h1] at H
    cases r1 with
    | error e1 => simp at H
    | ok a =>
      dsimp only at H
      rcases h2 : button_icon_step o hmenu signals.length ic bitmaps w₁ with ⟨r2, w₂⟩
      rw [h2] at H
      cases r2 with
      | error e2 => simp at H
      | ok bitmaps₁ =>
        dsimp only at H
        obtain ⟨hev₁, hnb₁⟩ := appendMenu_ok h1
        obtain ⟨new, newb, hev, hsig, hbm, hids, hmono, hbounds, hpw, hatt, hbic, hdes,
          hfat⟩ := IH hmenu (signals ++ [s]) bitmaps₁ w₂ s' b' w' H
        have hsiglen : (signals ++ [s]).length = signals.length + 1 := by simp
        rw [hsiglen] at hids
        rcases button_icon_step_ok h2 with ⟨hbmE, hwE⟩ | ⟨icv, hicv, hbm₂, hev₂, hnb₂⟩
        · subst hwE; subst hbmE
          refine ⟨⟨NativeCall.appendMenu hmenu (buttonFlags d c) signals.length (some n),
            w.callIdx, true⟩ :: new, newb, ?_, ?_, hbm, ?_, ?_, ?_, hpw, ?_, ?_, ?_, ?_⟩
          · rw [hev, hev₁]; simp
          · rw [hsig]; simp [flattenSignals]
          · rw [buttonIds_cons_some new
              (buttonAppendId_button hmenu d c signals.length n w.callIdx), hids]
            simp [countButtons, List.range'_succ]
          · rw [← hnb₁]; exact hmono
          · intro b hb
            have := hbounds b hb
            rw [hnb₁] at this
            exact this
          · intro b hb
            obtain ⟨ev, hev', hatt'⟩ := hatt b hb
            exact ⟨ev, List.mem_cons_of_mem _ hev', hatt'⟩
          · intro ev hev'
            rcases List.mem_cons.mp hev' with h | h
            · subst h; simp [NativeCall.isButtonIconCall]
            · exact hbic ev h
          · intro ev hev'
            rcases List.mem_cons.mp hev' with h | h
            · subst h; simp [NativeCall.isDestroyCall]
            · exact hdes ev h
          · intro ev hev'
            rcases List.mem_cons.mp hev' with h | h
            · subst h; simp
            · exact hfat ev h
        · subst hbm₂
          refine ⟨⟨NativeCall.appendMenu hmenu (buttonFlags d c) signals.length (some n),
              w.callIdx, true⟩ ::
            ⟨NativeCall.resolveIcon false icv, w₁.callIdx, true⟩ ::
            ⟨NativeCall.setMenuItemInfo hmenu signals.length false w₁.nextBitmap,
              w₁.callIdx + 1, true⟩ :: new,
            w₁.nextBitmap :: newb, ?_, ?_, ?_, ?_, ?_, ?_, ?_, ?_, ?_, ?_, ?_⟩
          · rw [hev, hev₂, hev₁]; simp
          · rw [hsig]; simp [flattenSignals]
          · rw [hbm]; simp
          · rw [buttonIds_cons_some _
              (buttonAppendId_button hmenu d c signals.length n w.callIdx),
              buttonIds_cons_none _ (by simp [NEvent.buttonAppendId]),
              buttonIds_cons_none _ (by simp [NEvent.buttonAppendId]), hids]
            simp [countButtons, List.range'_succ]
          · rw [← hnb₁]
            have h3 : w₂.nextBitmap ≤ w'.nextBitmap := hmono
            rw [hnb₂] at h3
            omega
          · intro b hb
            have h3 : w₂.nextBitmap ≤ w'.nextBitmap := hmono
            rw [hnb₂] at h3
            rcases List.mem_cons.mp hb with h | h
            · subst h
              rw [hnb₁]
              omega
            · have := hbounds b h
              rw [hnb₂, hnb₁] at this
              omega
          · refine List.pairwise_cons.mpr ⟨?_, hpw⟩
            intro b hb
            have := hbounds b hb
            rw [hnb₂, hnb₁] at this
            omega
          · intro b hb
            rcases List.mem_cons.mp hb with h | h
            · subst h
              refine ⟨⟨NativeCall.setMenuItemInfo hmenu signals.length false w₁.nextBitmap,
                  w₁.callIdx + 1, true⟩, by simp, ?_⟩
              simp [NEvent.attachesBitmap]
            · obtain ⟨ev, hev', hatt'⟩ := hatt b h
              exact ⟨ev, by simp [hev'], hatt'⟩
          · intro ev hev'
            simp only [List.mem_cons] at hev'
            rcases hev' with rfl | rfl | rfl | h
            · simp [NativeCall.isButtonIconCall]
            · simp
            · simp
            · exact hbic ev h
          · intro ev hev'
            simp only [List.mem_cons] at hev'
            rcases hev' with rfl | rfl | rfl | h
            · simp [NativeCall.isDestroyCall]
            · simp [NativeCall.isDestroyCall]
            · simp [NativeCall.isDestroyCall]
            · exact hdes ev h
          · intro ev hev'
            simp only [List.mem_cons] at hev'
            rcases hev' with rfl | rfl | rfl | h
            · simp
            · simp
            · simp
            · exact hfat ev h
  | hmen n children ic rest IHc IHr =>
    intro hmenu signals bitmaps w s' b' w' H
    simp only [add_all] at H
    rcases h1 : createPopupMenu o w with ⟨r1, w₁⟩
    rw [h1] at H
    cases r1 with
    | error e1 => simp at H
    | ok submenu =>
      dsimp only at H
      rcases h2 : add_all o submenu signals children bitmaps w₁ with ⟨r2, w₂⟩
      rw [h2] at H
      cases r2 with
      | error e2 => simp at H
      | ok p =>
        obtain ⟨signals₁, bitmaps₁⟩ := p
        dsimp only at H
        rcases h3 : appendMenu o hmenu MF_POPUP submenu (some n) w₂ with ⟨r3, w₃⟩
        rw [h3] at H
        cases r3 with
        | error e3 => simp at H
        | ok a =>
          dsimp only at H
          rcases h4 : submenu_icon_step o hmenu ic bitmaps₁ w₃ with ⟨bitmaps₂, w₄⟩
          rw [h4] at H
          dsimp only at H
          obtain ⟨hev₁, hnb₁⟩ := createPopupMenu_ok h1
          obtain ⟨newC, newbC, hevC, hsigC, hbmC, hidsC, hmonoC, hboundsC, hpwC,
            hattC, hbicC, hdesC, hfatC⟩ :=
            IHc submenu signals bitmaps w₁ signals₁ bitmaps₁ w₂ h2
          obtain ⟨hev₃, hnb₃⟩ := appendMenu_ok h3
          obtain ⟨newI, newbI, hevI, hbmI, hidsI, hmonoI, hboundsI, hpwI, hattI,
            hbicI, hdesI, hsubI⟩ := submenu_icon_step_spec h4
          obtain ⟨newR, newbR, hevR, hsigR, hbmR, hidsR, hmonoR, hboundsR, hpwR,
            hattR, hbicR, hdesR, hfatR⟩ := IHr hmenu signals₁ bitmaps₂ w₄ s' b' w' H
          have hlen₁ : signals₁.length = signals.length + countButtons children := by
            rw [hsigC]
            simp [flattenSignals_length]
          rw [hlen₁] at hidsR
          have hq₂ : w.nextBitmap ≤ w₂.nextBitmap := by
            rw [← hnb₁]; exact hmonoC
          have hq₃ : w₂.nextBitmap = w₃.nextBitmap := hnb₃.symm
          have hq₄ : w₃.nextBitmap ≤ w₄.nextBitmap := hmonoI
          have hq' : w₄.nextBitmap ≤ w'.nextBitmap := hmonoR
          refine ⟨⟨NativeCall.createPopupMenu, w.callIdx, true⟩ :: newC ++
            (⟨NativeCall.appendMenu hmenu MF_POPUP submenu (some n), w₂.callIdx, true⟩ ::
              (newI ++ newR)),
            newbC ++ (newbI ++ newbR), ?_, ?_, ?_, ?_, ?_, ?_, ?_, ?_, ?_, ?_, ?_⟩
          · rw [hevR, hevI, hev₃, hevC, hev₁]; simp
          · rw [hsigR, hsigC]; simp [flattenSignals]
          · rw [hbmR, hbmI, hbmC]; simp
          · rw [List.cons_append,
              buttonIds_cons_none _ (by simp [NEvent.buttonAppendId]),
              buttonIds_append,
              buttonIds_cons_none _ (by simp [NEvent.buttonAppendId, MF_POPUP, MF_SEPARATOR]),
              buttonIds_append, hidsC, hidsI, hidsR]
            rw [List.nil_append, range'_append_1]
            simp [countButtons]
          · rw [← hnb₁]
            omega
          · intro b hb
            simp only [List.mem_append] at hb
            rcases hb with h | h | h
            · have := hboundsC b h
              rw [hnb₁] at this
              omega
            · have := hboundsI b h
              omega
            · have := hboundsR b h
              omega
          · refine List.pairwise_append.mpr ⟨hpwC, List.pairwise_append.mpr ⟨hpwI, hpwR, ?_⟩, ?_⟩
            · intro b hb b' hb'
              have hB := hboundsI b hb
              have hB' := hboundsR b' hb'
              omega
            · intro b hb b' hb'
              have hB := hboundsC b hb
              rw [hnb₁] at hB
              simp only [List.mem_append] at hb'
              rcases hb' with h' | h'
              · have hB' := hboundsI b' h'
                omega
              · have hB' := hboundsR b' h'
                omega
          · intro b hb
            simp only [List.mem_append] at hb
            rcases hb with h | h | h
            · obtain ⟨ev, hev', hatt'⟩ := hattC b h
              exact ⟨ev, by simp [hev'], hatt'⟩
            · obtain ⟨ev, hev', hatt'⟩ := hattI b h
              exact ⟨ev, by simp [hev'], hatt'⟩
            · obtain ⟨ev, hev', hatt'⟩ := hattR b h
              exact ⟨ev, by simp [hev'], hatt'⟩
          · intro ev hev'
            simp only [List.mem_cons, List.mem_append] at hev'
            rcases hev' with (rfl | h) | rfl | h | h
            · simp [NativeCall.isButtonIconCall]
            · exact hbicC ev h
            · simp [NativeCall.isButtonIconCall]
            · intro hx
              rw [hbicI ev h] at hx
              exact absurd hx (by simp)
            · exact hbicR ev h
          · intro ev hev'
            simp only [List.mem_cons, List.mem_append] at hev'
            rcases hev' with (rfl | h) | rfl | h | h
            · simp [NativeCall.isDestroyCall]
            · exact hdesC ev h
            · simp [NativeCall.isDestroyCall]
            · exact hdesI ev h
            · exact hdesR ev h
          · intro ev hev'
            simp only [List.mem_cons, List.mem_append] at hev'
            rcases hev' with (rfl | h) | rfl | h | h
            · simp
            · exact hfatC ev h
            · simp
            · intro hx
              rw [hsubI ev h] at hx
              exact absurd hx (by simp)
            · exact hfatR ev h

theorem add_all_err_spec {T : Type} (o : Oracle) (items : List (MenuItem T)) :
    ∀ (hmenu : Nat) (signals : List T) (bitmaps : List Nat) (w : World)
      (e : TrayError) (w' : World),
      add_all o hmenu signals items bitmaps w = (Except.error e, w') →
      ∃ new c i,
        w'.events = w.events ++ new ∧
        e = TrayError.win32 i ∧ o c i = true ∧
        c.isSubmenuIconCall = false ∧ c.isDestroyCall = false ∧
        (⟨c, i, false⟩ : NEvent) ∈ new ∧
        (∀ ev ∈ new, ev.call.isDestroyCall = false) := by
  induction items using menuList_ind with
  | h0 =>
    intro hmenu signals bitmaps w e w' H
    simp [add_all] at H
  | hsep rest IH =>
    intro hmenu signals bitmaps w e w' H
    simp only [add_all] at H
    rcases h1 : appendMenu o hmenu MF_SEPARATOR 0 none w with ⟨r1, w₁⟩
    rw [h1] at H
    cases r1 with
    | error e1 =>
      dsimp only at H
      simp only [Prod.mk.injEq, Except.error.injEq] at H
      obtain ⟨he, hw⟩ := H
      subst hw; subst he
      obtain ⟨hev₁, he₁, hc₁⟩ := appendMenu_err h1
      refine ⟨[⟨NativeCall.appendMenu hmenu MF_SEPARATOR 0 none, w.callIdx, false⟩],
        NativeCall.appendMenu hmenu MF_SEPARATOR 0 none, w.callIdx, hev₁, he₁, hc₁,
        by simp [NativeCall.isSubmenuIconCall], by simp [NativeCall.isDestroyCall],
        by simp, ?_⟩
      intro ev hev
      simp only [List.mem_singleton] at hev
      subst hev
      simp [NativeCall.isDestroyCall]
    | ok a =>
      dsimp only at H
      obtain ⟨new, c, i, hev, he, hc, hs, hd, hmem, hall⟩ :=
        IH hmenu signals bitmaps w₁ e w' H
      obtain ⟨hev₁, hnb₁⟩ := appendMenu_ok h1
      refine ⟨⟨NativeCall.appendMenu hmenu MF_SEPARATOR 0 none, w.callIdx, true⟩ :: new,
        c, i, ?_, he, hc, hs, hd, List.mem_cons_of_mem _ hmem, ?_⟩
      · rw [hev, hev₁]; simp
      · intro ev hev'
        rcases List.mem_cons.mp hev' with h | h
        · subst h; simp [NativeCall.isDestroyCall]
        · exact hall ev h
  | hbtn n s d c ic rest IH =>
    intro hmenu signals bitmaps w e w' H
    simp only [add_all] at H
    rcases h1 : appendMenu o hmenu (buttonFlags d c) signals.length (some n) w with ⟨r1, w₁⟩
    rw [h1] at H
    cases r1 with
    | error e1 =>
      dsimp only at H
      simp only [Prod.mk.injEq, Except.error.injEq] at H
      obtain ⟨he, hw⟩ := H
      subst hw; subst he
      obtain ⟨hev₁, he₁, hc₁⟩ := appendMenu_err h1
      refine ⟨[⟨NativeCall.appendMenu hmenu (buttonFlags d c) signals.length (some n),
          w.callIdx, false⟩],
        NativeCall.appendMenu hmenu (buttonFlags d c) signals.length (some n),
        w.callIdx, hev₁, he₁, hc₁,
        by simp [NativeCall.isSubmenuIconCall], by simp [NativeCall.isDestroyCall],
        by simp, ?_⟩
      intro ev hev
      simp only [List.mem_singleton] at hev
      subst hev
      simp [NativeCall.isDestroyCall]
    | ok a =>
      dsimp only at H
      rcases h2 : button_icon_step o hmenu signals.length ic bitmaps w₁ with ⟨r2, w₂⟩
      rw [h2] at H
      obtain ⟨hev₁, hnb₁⟩ := appendMenu_ok h1
      cases r2 with
      | error e2 =>
        dsimp only at H
        simp only [Prod.mk.injEq, Except.error.injEq] at H
        obtain ⟨he, hw⟩ := H
        subst hw; subst he
        obtain ⟨icv, hicv, h5⟩ := button_icon_step_err h2
        rcases set_menu_icon_err h5 with ⟨hev₅, hnb₅, he₅, hc₅⟩ | ⟨hev₅, hnb₅, he₅, hc₅⟩
        · refine ⟨⟨NativeCall.appendMenu hmenu (buttonFlags d c) signals.length (some n),
              w.callIdx, true⟩ ::
            [⟨NativeCall.resolveIcon false icv, w₁.callIdx, false⟩],
            NativeCall.resolveIcon false icv, w₁.callIdx, ?_, he₅, hc₅,
            by simp [NativeCall.isSubmenuIconCall], by simp [NativeCall.isDestroyCall],
            by simp, ?_⟩
          · rw [hev₅, hev₁]; simp
          · intro ev hev
            rcases List.mem_cons.mp hev with h | h
            · subst h; simp [NativeCall.isDestroyCall]
            simp only [List.mem_singleton] at h
            subst h
            simp [NativeCall.isDestroyCall]
        · refine ⟨⟨NativeCall.appendMenu hmenu (buttonFlags d c) signals.length (some n),
              w.callIdx, true⟩ ::
            [⟨NativeCall.resolveIcon false icv, w₁.callIdx, true⟩,
             ⟨NativeCall.setMenuItemInfo hmenu signals.length false w₁.nextBitmap,
               w₁.callIdx + 1, false⟩],
            NativeCall.setMenuItemInfo hmenu signals.length false w₁.nextBitmap,
            w₁.callIdx + 1, ?_, he₅, hc₅,
            by simp [NativeCall.isSubmenuIconCall], by simp [NativeCall.isDestroyCall],
            by simp, ?_⟩
          · rw [hev₅, hev₁]; simp
          · intro ev hev
            rcases List.mem_cons.mp hev with h | h
            · subst h; simp [NativeCall.isDestroyCall]
            rcases List.mem_cons.mp h with h' | h'
            · subst h'; simp [NativeCall.isDestroyCall]
            simp only [List.mem_singleton] at h'
            subst h'
            simp [NativeCall.isDestroyCall]
      | ok bitmaps₁ =>
        dsimp only at H
        obtain ⟨new, cc, i, hev, he, hc, hs, hd, hmem, hall⟩ :=
          IH hmenu (signals ++ [s]) bitmaps₁ w₂ e w' H
        rcases button_icon_step_ok h2 with ⟨hbmE, hwE⟩ | ⟨icv, hicv, hbm₂, hev₂, hnb₂⟩
        · subst hwE
          refine ⟨⟨NativeCall.appendMenu hmenu (buttonFlags d c) signals.length (some n),
              w.callIdx, true⟩ :: new, cc, i, ?_, he, hc, hs, hd,
            List.mem_cons_of_mem _ hmem, ?_⟩
          · rw [hev, hev₁]; simp
          · intro ev hev'
            rcases List.mem_cons.mp hev' with h | h
            · subst h; simp [NativeCall.isDestroyCall]
            · exact hall ev h
        · refine ⟨⟨NativeCall.appendMenu hmenu (buttonFlags d c) signals.length (some n),
              w.callIdx, true⟩ ::
            ⟨NativeCall.resolveIcon false icv, w₁.callIdx, true⟩ ::
            ⟨NativeCall.setMenuItemInfo hmenu signals.length false w₁.nextBitmap,
              w₁.callIdx + 1, true⟩ :: new, cc, i, ?_, he, hc, hs, hd, ?_, ?_⟩
          · rw [hev, hev₂, hev₁]; simp
          · simp [hmem]
          · intro ev hev'
            simp only [List.mem_cons] at hev'
            rcases hev' with rfl | rfl | rfl | h
            · simp [NativeCall.isDestroyCall]
            · simp [NativeCall.isDestroyCall]
            · simp [NativeCall.isDestroyCall]
            · exact hall ev h
  | hmen n children ic rest IHc IHr =>
    intro hmenu signals bitmaps w e w' H
    simp only [add_all] at H
    rcases h1 : createPopupMenu o w with ⟨r1, w₁⟩
    rw [h1] at H
    cases r1 with
    | error e1 =>
      dsimp only at H
      simp only [Prod.mk.injEq, Except.error.injEq] at H
      obtain ⟨he, hw⟩ := H
      subst hw; subst he
      obtain ⟨hev₁, he₁, hc₁⟩ := createPopupMenu_err h1
      refine ⟨[⟨NativeCall.createPopupMenu, w.callIdx, false⟩],
        NativeCall.createPopupMenu, w.callIdx, hev₁, he₁, hc₁,
        by simp [NativeCall.isSubmenuIconCall], by simp [NativeCall.isDestroyCall],
        by simp, ?_⟩
      intro ev hev
      simp only [List.mem_singleton] at hev
      subst hev
      simp [NativeCall.isDestroyCall]
    | ok submenu =>
      dsimp only at H
      obtain ⟨hev₁, hnb₁⟩ := createPopupMenu_ok h1
      rcases h2 : add_all o submenu signals children bitmaps w₁ with ⟨r2, w₂⟩
      rw [h2] at H
      cases r2 with
      | error e2 =>
        dsimp only at H
        simp only [Prod.mk.injEq, Except.error.injEq] at H
        obtain ⟨he, hw⟩ := H
        obtain ⟨new, cc, i, hev, he2, hc, hs, hd, hmem, hall⟩ :=
          IHc submenu signals bitmaps w₁ e2 w₂ h2
        refine ⟨⟨NativeCall.createPopupMenu, w.callIdx, true⟩ :: new, cc, i, ?_,
          ?_, hc, hs, hd, List.mem_cons_of_mem _ hmem, ?_⟩
        · rw [← hw, hev, hev₁]; simp
        · rw [← he, he2]
        · intro ev hev'
          rcases List.mem_cons.mp hev' with h | h
          · subst h; simp [NativeCall.isDestroyCall]
          · exact hall ev h
      | ok p =>
        obtain ⟨signals₁, bitmaps₁⟩ := p
        dsimp only at H
        obtain ⟨newC, newbC, hevC, hsigC, hbmC, hidsC, hmonoC, hboundsC, hpwC,
          hattC, hbicC, hdesC, -⟩ := add_all_ok_spec o children submenu signals bitmaps
            w₁ signals₁ bitmaps₁ w₂ h2
        rcases h3 : appendMenu o hmenu MF_POPUP submenu (some n) w₂ with ⟨r3, w₃⟩
        rw [h3] at H
        cases r3 with
        | error e3 =>
          dsimp only at H
          simp only [Prod.mk.injEq, Except.error.injEq] at H
          obtain ⟨he, hw⟩ := H
          subst hw; subst he
          obtain ⟨hev₃, he₃, hc₃⟩ := appendMenu_err h3
          refine ⟨⟨NativeCall.createPopupMenu, w.callIdx, true⟩ :: newC ++
            [⟨NativeCall.appendMenu hmenu MF_POPUP submenu (some n), w₂.callIdx, false⟩],
            NativeCall.appendMenu hmenu MF_POPUP submenu (some n), w₂.callIdx, ?_,
            he₃, hc₃,
            by simp [NativeCall.isSubmenuIconCall], by simp [NativeCall.isDestroyCall],
            by simp, ?_⟩
          · rw [hev₃, hevC, hev₁]; simp
          · intro ev hev'
            simp only [List.mem_cons, List.mem_append, List.mem_singleton] at hev'
            rcases hev' with (rfl | h) | rfl | hx
            · simp [NativeCall.isDestroyCall]
            · exact hdesC ev h
            · simp [NativeCall.isDestroyCall]
            · simp at hx
        | ok a =>
          dsimp only at H
          obtain ⟨hev₃, hnb₃⟩ := appendMenu_ok h3
          rcases h4 : submenu_icon_step o hmenu ic bitmaps₁ w₃ with ⟨bitmaps₂, w₄⟩
          rw [h4] at H
          dsimp only at H
          obtain ⟨newI, newbI, hevI, hbmI, hidsI, hmonoI, hboundsI, hpwI, hattI,
            hbicI, hdesI, -⟩ := submenu_icon_step_spec h4
          obtain ⟨new, cc, i, hev, he, hc, hs, hd, hmem, hall⟩ :=
            IHr hmenu signals₁ bitmaps₂ w₄ e w' H
          refine ⟨⟨NativeCall.createPopupMenu, w.callIdx, true⟩ :: newC ++
            (⟨NativeCall.appendMenu hmenu MF_POPUP submenu (some n), w₂.callIdx, true⟩ ::
              (newI ++ new)), cc, i, ?_, he, hc, hs, hd, ?_, ?_⟩
          · rw [hev, hevI, hev₃, hevC, hev₁]; simp
          · simp [hmem]
          · intro ev hev'
            simp only [List.mem_cons, List.mem_append] at hev'
            rcases hev' with (rfl | h) | rfl | h | h
            · simp [NativeCall.isDestroyCall]
            · exact hdesC ev h
            · simp [NativeCall.isDestroyCall]
            · exact hdesI ev h
            · exact hall ev h

theorem add_all_soft_ok {T : Type} (o : Oracle)
    (Hsoft : ∀ c i, o c i = true → c.isSubmenuIconCall = true)
    (items : List (MenuItem T)) :
    ∀ (hmenu : Nat) (signals : List T) (bitmaps : List Nat) (w : World),
      ∃ bitmaps' w', add_all o hmenu signals items bitmaps w =
        (Except.ok (signals ++ flattenSignals items, bitmaps'), w') := by
  induction items using menuList_ind with
  | h0 =>
    intro hmenu signals bitmaps w
    exact ⟨bitmaps, w, by simp [add_all, flattenSignals]⟩
  | hsep rest IH =>
    intro hmenu signals bitmaps w
    rcases h1 : appendMenu o hmenu MF_SEPARATOR 0 none w with ⟨r1, w₁⟩
    cases r1 with
    | error e1 =>
      obtain ⟨-, -, hc₁⟩ := appendMenu_err h1
      have hbad := Hsoft _ _ hc₁
      simp [NativeCall.isSubmenuIconCall] at hbad
    | ok a =>
      obtain ⟨bitmaps', w', hrec⟩ := IH hmenu signals bitmaps w₁
      refine ⟨bitmaps', w', ?_⟩
      simp only [add_all]
      rw [h1]
      dsimp only
      rw [hrec]
      simp [flattenSignals]
  | hbtn n s d c ic rest IH =>
    intro hmenu signals bitmaps w
    rcases h1 : appendMenu o hmenu (buttonFlags d c) signals.length (some n) w with ⟨r1, w₁⟩
    cases r1 with
    | error e1 =>
      obtain ⟨-, -, hc₁⟩ := appendMenu_err h1
      have hbad := Hsoft _ _ hc₁
      simp [NativeCall.isSubmenuIconCall] at hbad
    | ok a =>
      rcases h2 : button_icon_step o hmenu signals.length ic bitmaps w₁ with ⟨r2, w₂⟩
      cases r2 with
      | error e2 =>
        obtain ⟨icv, -, h5⟩ := button_icon_step_err h2
        rcases set_menu_icon_err h5 with ⟨-, -, -, hc₅⟩ | ⟨-, -, -, hc₅⟩
        · have hbad := Hsoft _ _ hc₅
          simp [NativeCall.isSubmenuIconCall] at hbad
        · have hbad := Hsoft _ _ hc₅
          simp [NativeCall.isSubmenuIconCall] at hbad
      | ok bitmaps₁ =>
        obtain ⟨bitmaps', w', hrec⟩ := IH hmenu (signals ++ [s]) bitmaps₁ w₂
        refine ⟨bitmaps', w', ?_⟩
        simp only [add_all]
        rw [h1]
        dsimp only
        rw [h2]
        dsimp only
        rw [hrec]
        simp [flattenSignals]
  | hmen n children ic rest IHc IHr =>
    intro hmenu signals bitmaps w
    rcases h1 : createPopupMenu o w with ⟨r1, w₁⟩
    cases r1 with
    | error e1 =>
      obtain ⟨-, -, hc₁⟩ := createPopupMenu_err h1
      have hbad := Hsoft _ _ hc₁
      simp [NativeCall.isSubmenuIconCall] at hbad
    | ok submenu =>
      obtain ⟨bitmaps₁, w₂, hrecC⟩ := IHc submenu signals bitmaps w₁
      rcases h3 : appendMenu o hmenu MF_POPUP submenu (some n) w₂ with ⟨r3, w₃⟩
      cases r3 with
      | error e3 =>
        obtain ⟨-, -, hc₃⟩ := appendMenu_err h3
        have hbad := Hsoft _ _ hc₃
        simp [NativeCall.isSubmenuIconCall] at hbad
      | ok a =>
        rcases h4 : submenu_icon_step o hmenu ic bitmaps₁ w₃ with ⟨bitmaps₂, w₄⟩
        obtain ⟨bitmaps', w', hrecR⟩ :=
          IHr hmenu (signals ++ flattenSignals children) bitmaps₂ w₄
        refine ⟨bitmaps', w', ?_⟩
        simp only [add_all]
        rw [h1]
        dsimp only
        rw [hrecC]
        dsimp only
        rw [h3]
        dsimp only
        rw [h4]
        dsimp only
        rw [hrecR]
        simp [flattenSignals]

theorem tryFrom_ok_spec {T : Type} {o : Oracle} {m : Menu T} {w : World}
    {nm : NativeMenu T} {w' : World}
    (H : NativeMenu.tryFrom o m w = (Except.ok nm, w')) :
    ∃ new,
      w'.events = w.events ++ new ∧
      nm.signals = flattenSignals m.items ∧
      List.Pairwise (fun x y => x < y) nm.bitmaps ∧
      (∀ b ∈ nm.bitmaps, ∃ ev ∈ new, ev.attachesBitmap b = true) ∧
      buttonIds new = List.range (countButtons m.items) ∧
      (∀ ev ∈ new, ev.call.isButtonIconCall = true → ev.ok = true) ∧
      (∀ ev ∈ new, ev.call.isDestroyCall = false) ∧
      (∀ ev ∈ new, ev.call.isSubmenuIconCall = false → ev.ok = true) := by
  simp only [NativeMenu.tryFrom] at H
  rcases h1 : createPopupMenu o (w.log LogMsg.creatingNativeMenu) with ⟨r1, w₁⟩
  rw [h1] at H
  cases r1 with
  | error e1 => simp at H
  | ok hmenu =>
    dsimp only at H
    rcases h2 : add_all o hmenu ([] : List T) m.items [] w₁ with ⟨r2, w₂⟩
    rw [h2] at H
    cases r2 with
    | error e2 => simp at H
    | ok p =>
      obtain ⟨signals, bitmaps⟩ := p
      dsimp only at H
      simp only [Prod.mk.injEq, Except.ok.injEq] at H
      obtain ⟨hnm, hw⟩ := H
      subst hw
      subst hnm
      obtain ⟨new, newb, hev, hsig, hbm, hids, hmono, hbounds, hpw, hatt, hbic, hdes,
        hfat⟩ := add_all_ok_spec o m.items hmenu [] [] w₁ signals bitmaps w₂ h2
      obtain ⟨hev₁, hnb₁⟩ := createPopupMenu_ok h1
      have hevlog : (w.log LogMsg.creatingNativeMenu).events = w.events := by
        simp [World.log]
      refine ⟨⟨NativeCall.createPopupMenu, (w.log LogMsg.creatingNativeMenu).callIdx,
        true⟩ :: new, ?_, ?_, ?_, ?_, ?_, ?_, ?_, ?_⟩
      · rw [hev, hev₁, hevlog]
        simp
      · simpa using hsig
      · simpa [hbm] using hpw
      · intro b hb
        simp only at hb
        rw [hbm] at hb
        simp only [List.nil_append] at hb
        obtain ⟨ev, hev', hatt'⟩ := hatt b hb
        exact ⟨ev, List.mem_cons_of_mem _ hev', hatt'⟩
      · rw [buttonIds_cons_none _ (by simp [NEvent.buttonAppendId]), hids]
        simp [List.range_eq_range']
      · intro ev hev'
        rcases List.mem_cons.mp hev' with h | h
        · subst h; simp [NativeCall.isButtonIconCall]
        · exact hbic ev h
      · intro ev hev'
        rcases List.mem_cons.mp hev' with h | h
        · subst h; simp [NativeCall.isDestroyCall]
        · exact hdes ev h
      · intro ev hev'
        rcases List.mem_cons.mp hev' with h | h
        · subst h; simp
        · exact hfat ev h

theorem tryFrom_err_spec {T : Type} {o : Oracle} {m : Menu T} {w : World}
    {e : TrayError} {w' : World}
    (H : NativeMenu.tryFrom o m w = (Except.error e, w')) :
    ∃ new c i,
      w'.events = w.events ++ new ∧
      e = TrayError.win32 i ∧ o c i = true ∧
      c.isSubmenuIconCall = false ∧ c.isDestroyCall = false ∧
      (⟨c, i, false⟩ : NEvent) ∈ new ∧
      (∀ ev ∈ new, ev.call.isDestroyCall = false) := by
  simp only [NativeMenu.tryFrom] at H
  rcases h1 : createPopupMenu o (w.log LogMsg.creatingNativeMenu) with ⟨r1, w₁⟩
  rw [h1] at H
  have hevlog : (w.log LogMsg.creatingNativeMenu).events = w.events := by
    simp [World.log]
  cases r1 with
  | error e1 =>
    dsimp only at H
    simp only [Prod.mk.injEq, Except.error.injEq] at H
    obtain ⟨he, hw⟩ := H
    subst hw; subst he
    obtain ⟨hev₁, he₁, hc₁⟩ := createPopupMenu_err h1
    refine ⟨[⟨NativeCall.createPopupMenu, (w.log LogMsg.creatingNativeMenu).callIdx,
      false⟩], NativeCall.createPopupMenu,
      (w.log LogMsg.creatingNativeMenu).callIdx, ?_, he₁, hc₁,
      by simp [NativeCall.isSubmenuIconCall], by simp [NativeCall.isDestroyCall],
      by simp, ?_⟩
    · rw [hev₁, hevlog]
    · intro ev hev
      simp only [List.mem_singleton] at hev
      subst hev
      simp [NativeCall.isDestroyCall]
  | ok hmenu =>
    dsimp only at H
    rcases h2 : add_all o hmenu ([] : List T) m.items [] w₁ with ⟨r2, w₂⟩
    rw [h2] at H
    cases r2 with
    | ok p =>
      obtain ⟨signals, bitmaps⟩ := p
      simp at H
    | error e2 =>
      dsimp only at H
      simp only [Prod.mk.injEq, Except.error.injEq] at H
      obtain ⟨he, hw⟩ := H
      obtain ⟨new, c, i, hev, he₂, hc, hs, hd, hmem, hall⟩ :=
        add_all_err_spec o m.items hmenu [] [] w₁ e2 w₂ h2
      obtain ⟨hev₁, hnb₁⟩ := createPopupMenu_ok h1
      refine ⟨⟨NativeCall.createPopupMenu, (w.log LogMsg.creatingNativeMenu).callIdx,
          true⟩ :: new, c, i, ?_, ?_, hc, hs, hd,
        List.mem_cons_of_mem _ hmem, ?_⟩
      · rw [← hw, hev, hev₁, hevlog]
        simp
      · rw [← he, he₂]
      · intro ev hev'
        rcases List.mem_cons.mp hev' with h | h
        · subst h; simp [NativeCall.isDestroyCall]
        · exact hall ev h

theorem deleteBitmapStep_events (o : Oracle) (w : World) (b : Nat) :
    ∃ ok : Bool,
      (deleteBitmapStep o w b).events =
        w.events ++ [⟨NativeCall.deleteObject b, w.callIdx, ok⟩] := by
  by_cases hc : o (NativeCall.deleteObject b) w.callIdx = true
  · exact ⟨false, by simp [deleteBitmapStep, hc, World.record, World.log]⟩
  · exact ⟨true, by simp [deleteBitmapStep, hc, World.record, World.log]⟩

theorem drop_fold_calls (o : Oracle) :
    ∀ (bs : List Nat) (w : World),
      ((bs.foldl (deleteBitmapStep o) w).events.map NEvent.call) =
        w.events.map NEvent.call ++ bs.map NativeCall.deleteObject
  | [], w => by simp
  | b :: bs, w => by
    simp only [List.foldl_cons, List.map_cons]
    rw [drop_fold_calls o bs (deleteBitmapStep o w b)]
    obtain ⟨ok, hev⟩ := deleteBitmapStep_events o w b
    rw [hev]
    simp

theorem drop_calls {T : Type} (o : Oracle) (nm : NativeMenu T) (w : World) :
    (nm.drop o w).events.map NEvent.call =
      w.events.map NEvent.call ++ nm.bitmaps.map NativeCall.deleteObject ++
        [NativeCall.destroyMenu nm.hmenu] := by
  simp only [NativeMenu.drop]
  by_cases hc : o (NativeCall.destroyMenu nm.hmenu)
      ((nm.bitmaps.foldl (deleteBitmapStep o) (w.log LogMsg.destroyingNativeMenu)).callIdx) = true
  · rw [if_pos hc]
    simp only [World.log, World.record, List.map_append]
    rw [drop_fold_calls o nm.bitmaps]
    simp [World.log]
  · rw [if_neg hc]
    simp only [World.record, List.map_append]
    rw [drop_fold_calls o nm.bitmaps]
    simp [World.log]

theorem drop_fold_pairs_allok (o : Oracle) (hok : ∀ c i, o c i = false) :
    ∀ (bs : List Nat) (w : World),
      ((bs.foldl (deleteBitmapStep o) w).events.map (fun e => (e.call, e.ok))) =
        w.events.map (fun e => (e.call, e.ok)) ++
          bs.map (fun b => (NativeCall.deleteObject b, true))
  | [], w => by simp
  | b :: bs, w => by
    simp only [List.foldl_cons, List.map_cons]
    rw [drop_fold_pairs_allok o hok bs (deleteBitmapStep o w b)]
    have hc := hok (NativeCall.deleteObject b) w.callIdx
    simp [deleteBitmapStep, hc, World.record]

theorem drop_pairs_allok {T : Type} (o : Oracle) (hok : ∀ c i, o c i = false)
    (nm : NativeMenu T) (w : World) :
    (nm.drop o w).events.map (fun e => (e.call, e.ok)) =
      w.events.map (fun e => (e.call, e.ok)) ++
        nm.bitmaps.map (fun b => (NativeCall.deleteObject b, true)) ++
        [(NativeCall.destroyMenu nm.hmenu, true)] := by
  simp only [NativeMenu.drop]
  have hc := hok (NativeCall.destroyMenu nm.hmenu)
    ((nm.bitmaps.foldl (deleteBitmapStep o) (w.log LogMsg.destroyingNativeMenu)).callIdx)
  rw [if_neg (by simp [hc])]
  simp only [World.record, List.map_append]
  rw [drop_fold_pairs_allok o hok nm.bitmaps]
  simp [World.log]

theorem drop_fold_logs_allfail (o : Oracle) (hf : ∀ c i, o c i = true) :
    ∀ (bs : List Nat) (w : World),
      (bs.foldl (deleteBitmapStep o) w).logs =
        w.logs ++ List.replicate bs.length LogMsg.failedDestroyBitmap
  | [], w => by simp
  | b :: bs, w => by
    simp only [List.foldl_cons, List.length_cons]
    rw [drop_fold_logs_allfail o hf bs (deleteBitmapStep o w b)]
    have hc := hf (NativeCall.deleteObject b) w.callIdx
    simp [deleteBitmapStep, hc, World.record, World.log, List.replicate_succ]

theorem drop_logs_allfail {T : Type} (o : Oracle) (hf : ∀ c i, o c i = true)
    (nm : NativeMenu T) (w : World) :
    (nm.drop o w).logs =
      w.logs ++ LogMsg.destroyingNativeMenu ::
        (List.replicate nm.bitmaps.length LogMsg.failedDestroyBitmap ++
          [LogMsg.failedDestroyMenu]) := by
  simp only [NativeMenu.drop]
  have hc := hf (NativeCall.destroyMenu nm.hmenu)
    ((nm.bitmaps.foldl (deleteBitmapStep o) (w.log LogMsg.destroyingNativeMenu)).callIdx)
  rw [if_pos hc]
  simp only [World.record, World.log]
  rw [drop_fold_logs_allfail o hf nm.bitmaps]
  simp [World.log]

theorem get?_isSome_iff {α : Type} (l : List α) (n : Nat) :
    (l.get? n).isSome = true ↔ n < l.length := by
  constructor
  · intro h
    by_contra hn
    rw [List.get?_eq_none.mpr (Nat.le_of_not_lt hn)] at h
    simp at h
  · intro h
    rw [List.get?_eq_get h]
    simp

/-! ## Concrete inputs used by the witnesses -/

/-- The oracle under which every external call succeeds. -/
def allOk : Oracle := fun _ _ => false

/-- The oracle under which every external call fails. -/
def allFail : Oracle := fun _ _ => true

/-- The oracle that fails exactly the submenu-icon-path calls. -/
def softO : Oracle := fun c _ => c.isSubmenuIconCall

/-- The sample tree of spec section 8:
`[Button "A" 1, Separator, Menu "Sub" [Button "B" 2]]`. -/
def demoMenu : Menu Nat :=
  ⟨[MenuItem.button "A" 1 false none none,
    MenuItem.separator,
    MenuItem.menu "Sub" [MenuItem.button "B" 2 false none none] none]⟩

/-- The handle built from `demoMenu` under `allOk`. -/
def demoNM : NativeMenu Nat := ⟨1000000, [1, 2], []⟩

/-- The world after building `demoMenu` under `allOk` from `World.init`. -/
def demoW : World :=
  ⟨[(1000000, 3), (1000001, 1)], 1000002, 5000000, 6,
   [⟨NativeCall.createPopupMenu, 0, true⟩,
    ⟨NativeCall.appendMenu 1000000 0 0 (some "A"), 1, true⟩,
    ⟨NativeCall.appendMenu 1000000 2048 0 none, 2, true⟩,
    ⟨NativeCall.createPopupMenu, 3, true⟩,
    ⟨NativeCall.appendMenu 1000001 0 1 (some "B"), 4, true⟩,
    ⟨NativeCall.appendMenu 1000000 16 1000001 (some "Sub"), 5, true⟩],
   [LogMsg.creatingNativeMenu]⟩

theorem demo_build :
    NativeMenu.tryFrom allOk demoMenu World.init = (Except.ok demoNM, demoW) := by
  simp [NativeMenu.tryFrom, demoMenu, add_all, createPopupMenu, appendMenu,
    toBitmap, setMenuItemInfo, getMenuItemCount, set_menu_icon, button_icon_step,
    submenu_icon_step, buttonFlags, World.record, World.log, World.init, allOk,
    bumpCount, MF_SEPARATOR, MF_POPUP, MF_STRING, demoNM, demoW]

/-- The world after the failed build of `demoMenu` under `allFail`. -/
def demoFailW : World :=
  ⟨[], 1000000, 5000000, 1, [⟨NativeCall.createPopupMenu, 0, false⟩],
   [LogMsg.creatingNativeMenu]⟩

theorem demo_build_fail :
    NativeMenu.tryFrom allFail demoMenu World.init =
      (Except.error (TrayError.win32 0), demoFailW) := by
  simp [NativeMenu.tryFrom, demoMenu, add_all, createPopupMenu, appendMenu,
    toBitmap, setMenuItemInfo, getMenuItemCount, set_menu_icon, button_icon_step,
    submenu_icon_step, buttonFlags, World.record, World.log, World.init, allFail,
    bumpCount, demoFailW]

/-! ## The claims -/

/-- C1: for every input tree, a successful build produces a signal
collection identical to the sequence of signal values of the tree's
Button leaves flattened in depth-first left-to-right order; in particular
the collection's length equals the number of Button leaves (separators
and submenus contribute none). -/
theorem c1_signals_flatten {T : Type} (o : Oracle) (m : Menu T) (w : World)
    (nm : NativeMenu T) (w' : World)
    (H : NativeMenu.tryFrom o m w = (Except.ok nm, w')) :
    nm.signals = flattenSignals m.items ∧
    nm.signals.length = countButtons m.items := by
  obtain ⟨new, -, hsig, -, -, -, -, -, -⟩ := tryFrom_ok_spec H
  exact ⟨hsig, by rw [hsig, flattenSignals_length]⟩

theorem c1_signals_flatten_witness :
    demoNM.signals = flattenSignals demoMenu.items ∧
    demoNM.signals.length = countButtons demoMenu.items :=
  c1_signals_flatten allOk demoMenu World.init demoNM demoW demo_build

/-- C2: for every constructed menu, `map(id)` (the `u16`-keyed lookup,
embedded as `Fin 65536`) returns `Some` exactly when `id < signal_count`,
and the value returned is the exact signal pushed for that id during
construction (the id-th flattened button signal); `map` is a pure
function of the handle, so it performs no mutation. -/
theorem c2_lookup {T : Type} (o : Oracle) (m : Menu T) (w : World)
    (nm : NativeMenu T) (w' : World)
    (H : NativeMenu.tryFrom o m w = (Except.ok nm, w')) (id : Fin 65536) :
    ((nm.map id).isSome = true ↔ id.val < nm.signals.length) ∧
    nm.map id = (flattenSignals m.items).get? id.val := by
  obtain ⟨new, -, hsig, -, -, -, -, -, -⟩ := tryFrom_ok_spec H
  refine ⟨?_, ?_⟩
  · simp only [NativeMenu.map]
    exact get?_isSome_iff nm.signals id.val
  · simp only [NativeMenu.map, hsig]

theorem c2_lookup_witness :
    ((demoNM.map (2 : Fin 65536)).isSome = true ↔
      (2 : Fin 65536).val < demoNM.signals.length) ∧
    demoNM.map (2 : Fin 65536) =
      (flattenSignals demoMenu.items).get? (2 : Fin 65536).val :=
  c2_lookup allOk demoMenu World.init demoNM demoW demo_build (2 : Fin 65536)

/-- C3: a button-icon failure (icon resolution or by-id attachment, the
`by_position = false` mode) is fatal to the whole build.  Equivalently,
stated over the trace: whenever the build returns a handle, no
button-icon call in the calls it made failed — so a tree in which a
button's icon resolution or attachment fails can never yield `Ok`. -/
theorem c3_button_icon_fatal {T : Type} (o : Oracle) (m : Menu T) (w : World)
    (nm : NativeMenu T) (w' : World)
    (H : NativeMenu.tryFrom o m w = (Except.ok nm, w')) :
    ∀ ev ∈ w'.events.drop w.events.length,
      ev.call.isButtonIconCall = true → ev.ok = true := by
  obtain ⟨new, hev, -, -, -, -, hbic, -, -⟩ := tryFrom_ok_spec H
  rw [hev]
  intro ev hev'
  rw [List.drop_left] at hev'
  exact hbic ev hev'

/-- A one-button tree whose button carries an icon, for the C3 witness. -/
def demoBtnIconMenu : Menu Nat := ⟨[MenuItem.button "A" 1 false none (some 9)]⟩

/-- The handle built from `demoBtnIconMenu` under `allOk`. -/
def demoBtnIconNM : NativeMenu Nat := ⟨1000000, [1], [5000000]⟩

/-- The world after building `demoBtnIconMenu` under `allOk`. -/
def demoBtnIconW : World :=
  ⟨[(1000000, 1)], 1000001, 5000001, 4,
   [⟨NativeCall.createPopupMenu, 0, true⟩,
    ⟨NativeCall.appendMenu 1000000 0 0 (some "A"), 1, true⟩,
    ⟨NativeCall.resolveIcon false 9, 2, true⟩,
    ⟨NativeCall.setMenuItemInfo 1000000 0 false 5000000, 3, true⟩],
   [LogMsg.creatingNativeMenu]⟩

theorem demo_build_btn_icon :
    NativeMenu.tryFrom allOk demoBtnIconMenu World.init =
      (Except.ok demoBtnIconNM, demoBtnIconW) := by
  simp [NativeMenu.tryFrom, demoBtnIconMenu, add_all, createPopupMenu, appendMenu,
    toBitmap, setMenuItemInfo, getMenuItemCount, set_menu_icon, button_icon_step,
    submenu_icon_step, buttonFlags, World.record, World.log, World.init, allOk,
    bumpCount, MF_STRING, MF_SEPARATOR, MF_POPUP, MF_CHECKED, MF_GRAYED,
    demoBtnIconNM, demoBtnIconW]

theorem c3_button_icon_fatal_witness :
    (⟨NativeCall.resolveIcon false 9, 2, true⟩ : NEvent).ok = true :=
  c3_button_icon_fatal allOk demoBtnIconMenu World.init demoBtnIconNM demoBtnIconW
    demo_build_btn_icon ⟨NativeCall.resolveIcon false 9, 2, true⟩ (by decide)
    (by decide)

/-- C5: in every successful build, the ids passed to the native button
appends, read off the trace in traversal order across the whole tree
(submenus included, since the recursion shares the one growing signal
collection), are exactly `0, 1, 2, ...` up to the signal count — each
button's id is the length of the signal collection just before its signal
is pushed, so ids are globally unique and strictly sequential. -/
theorem c5_sequential_ids {T : Type} (o : Oracle) (m : Menu T) (w : World)
    (nm : NativeMenu T) (w' : World)
    (H : NativeMenu.tryFrom o m w = (Except.ok nm, w')) :
    buttonIds (w'.events.drop w.events.length) = List.range nm.signals.length := by
  obtain ⟨new, hev, hsig, -, -, hids, -, -, -⟩ := tryFrom_ok_spec H
  rw [hev, List.drop_left, hids, hsig, flattenSignals_length]

theorem c5_sequential_ids_witness :
    buttonIds (demoW.events.drop World.init.events.length) =
      List.range demoNM.signals.length :=
  c5_sequential_ids allOk demoMenu World.init demoNM demoW demo_build

/-- C9: the flags of a native Button entry depend only on `disabled` and
on whether `checked = Some(true)`: a `checked = Some(false)` button gets
exactly the flags of a `checked = None` button, two checked-states that
agree on being `Some(true)` give identical flags, and `disabled`
contributes exactly the `MF_GRAYED` bit on top of `MF_STRING` and the
optional `MF_CHECKED`. -/
theorem c9_button_flags :
    (∀ d : Bool, buttonFlags d (some false) = buttonFlags d none) ∧
    (∀ (d : Bool) (c₁ c₂ : Option Bool), (c₁ = some true ↔ c₂ = some true) →
      buttonFlags d c₁ = buttonFlags d c₂) ∧
    (∀ c : Option Bool, buttonFlags true c = buttonFlags false c ||| MF_GRAYED) ∧
    (∀ (d : Bool) (c : Option Bool),
      buttonFlags d c = MF_STRING ||| (if c = some true then MF_CHECKED else 0) |||
        (if d then MF_GRAYED else 0)) := by
  refine ⟨?_, ?_, ?_, ?_⟩
  · intro d; cases d <;> decide
  · intro d c₁ c₂ hiff
    rcases c₁ with _ | b₁ <;> rcases c₂ with _ | b₂
    · rfl
    · rcases b₂ with _ | _
      · cases d <;> decide
      · simp at hiff
    · rcases b₁ with _ | _
      · cases d <;> decide
      · simp at hiff
    · rcases b₁ with _ | _ <;> rcases b₂ with _ | _
      · rfl
      · simp at hiff
      · simp at hiff
      · rfl
  · intro c
    rcases c with _ | b
    · decide
    · rcases b with _ | _ <;> decide
  · intro d c
    rcases c with _ | b
    · cases d <;> decide
    · rcases b with _ | _ <;> cases d <;> decide

theorem c9_button_flags_witness :
    buttonFlags true (some false) = buttonFlags true none :=
  c9_button_flags.2.1 true (some false) none (by decide)

/-- A tree whose only submenu carries an icon, for the C4 witness. -/
def demoIconMenu : Menu Nat :=
  ⟨[MenuItem.menu "Sub" [MenuItem.button "B" 2 false none none] (some 7)]⟩

/-- C4: submenu-icon failure is non-fatal (asymmetric to the fatal
button-icon policy): under any oracle whose only failing calls are
submenu-icon-path calls (by-position icon resolution or attachment, or
the item-count query guarding them), building any tree succeeds and the
resulting signal collection is still complete and correct; the failure is
only logged (`add_all` continues after `LogMsg.failedSetSubmenuIcon`). -/
theorem c4_submenu_icon_nonfatal {T : Type} (o : Oracle) (m : Menu T) (w : World)
    (Hsoft : ∀ c i, o c i = true → c.isSubmenuIconCall = true) :
    ∃ nm w', NativeMenu.tryFrom o m w = (Except.ok nm, w') ∧
      nm.signals = flattenSignals m.items := by
  rcases h1 : createPopupMenu o (w.log LogMsg.creatingNativeMenu) with ⟨r1, w₁⟩
  cases r1 with
  | error e1 =>
    obtain ⟨-, -, hc⟩ := createPopupMenu_err h1
    have hbad := Hsoft _ _ hc
    simp [NativeCall.isSubmenuIconCall] at hbad
  | ok hmenu =>
    obtain ⟨bitmaps', w', hrec⟩ := add_all_soft_ok o Hsoft m.items hmenu [] [] w₁
    refine ⟨⟨hmenu, [] ++ flattenSignals m.items, bitmaps'⟩, w', ?_, by simp⟩
    simp only [NativeMenu.tryFrom]
    rw [h1]
    dsimp only
    rw [hrec]

theorem c4_submenu_icon_nonfatal_witness :
    ∃ nm w', NativeMenu.tryFrom softO demoIconMenu World.init = (Except.ok nm, w') ∧
      nm.signals = flattenSignals demoIconMenu.items :=
  c4_submenu_icon_nonfatal softO demoIconMenu World.init (fun c i h => h)

/-- C6: teardown is total and best-effort: for every oracle (even one
failing every destruction call) the drop issues exactly one
`DeleteObject` per recorded bitmap handle, in order, followed by one
`DestroyMenu` of the top-level handle, and returns a world rather than an
error; when every call fails it still completes, logging one warning per
failed bitmap destruction and one for the failed menu destruction (the
exactly-once timing of `Drop` at end of scope is Rust's `Drop` contract,
outside this model). -/
theorem c6_teardown_total {T : Type} (o : Oracle) (nm : NativeMenu T) (w : World) :
    ((nm.drop o w).events.map NEvent.call =
      w.events.map NEvent.call ++ nm.bitmaps.map NativeCall.deleteObject ++
        [NativeCall.destroyMenu nm.hmenu]) ∧
    ((∀ c i, o c i = true) →
      (nm.drop o w).logs =
        w.logs ++ LogMsg.destroyingNativeMenu ::
          (List.replicate nm.bitmaps.length LogMsg.failedDestroyBitmap ++
            [LogMsg.failedDestroyMenu])) :=
  ⟨drop_calls o nm w, fun hf => drop_logs_allfail o hf nm w⟩

theorem c6_teardown_total_witness :
    ((NativeMenu.drop allFail (⟨3, [5], [10, 11]⟩ : NativeMenu Nat) World.init).events.map
        NEvent.call =
      World.init.events.map NEvent.call ++
        ([10, 11] : List Nat).map NativeCall.deleteObject ++
        [NativeCall.destroyMenu 3]) ∧
    (NativeMenu.drop allFail (⟨3, [5], [10, 11]⟩ : NativeMenu Nat) World.init).logs =
      World.init.logs ++ LogMsg.destroyingNativeMenu ::
        (List.replicate ([10, 11] : List Nat).length LogMsg.failedDestroyBitmap ++
          [LogMsg.failedDestroyMenu]) :=
  ⟨(c6_teardown_total allFail ⟨3, [5], [10, 11]⟩ World.init).1,
   (c6_teardown_total allFail ⟨3, [5], [10, 11]⟩ World.init).2 (fun c i => rfl)⟩

theorem countP_delete (b : Nat) (bs : List Nat) :
    (bs.map (fun x => (NativeCall.deleteObject x, true))).countP
      (fun p => p.1 == NativeCall.deleteObject b && p.2) = bs.count b := by
  induction bs with
  | nil => simp
  | cons x xs ih =>
    simp only [List.map_cons, List.countP_cons, ih, List.count_cons]
    by_cases hx : x = b
    · subst hx; simp
    · simp [hx]

/-- C7: the bitmap-collection invariant: every bitmap handle a successful
build records was successfully attached to some menu item before being
recorded (a successful `SetMenuItemInfoW` for it appears in the build's
trace); the recorded handles are pairwise distinct; and teardown by the
owning handle (with succeeding destruction calls) destroys each recorded
handle exactly once. -/
theorem c7_bitmap_invariant {T : Type} (o o' : Oracle) (m : Menu T) (w : World)
    (nm : NativeMenu T) (w' : World)
    (H : NativeMenu.tryFrom o m w = (Except.ok nm, w'))
    (Hok : ∀ c i, o' c i = false) :
    (∀ b ∈ nm.bitmaps, ∃ ev ∈ w'.events.drop w.events.length,
      ev.attachesBitmap b = true) ∧
    nm.bitmaps.Nodup ∧
    (∀ b ∈ nm.bitmaps,
      ((nm.drop o' w').events.drop w'.events.length).countP
        (fun ev => ev.call == NativeCall.deleteObject b && ev.ok) = 1) := by
  obtain ⟨new, hev, -, hpw, hatt, -, -, -, -⟩ := tryFrom_ok_spec H
  have hnd : nm.bitmaps.Nodup := List.Pairwise.imp (fun h => Nat.ne_of_lt h) hpw
  refine ⟨?_, hnd, ?_⟩
  · intro b hb
    rw [hev, List.drop_left]
    exact hatt b hb
  · intro b hb
    have hp := drop_pairs_allok o' Hok nm w'
    have hd : ((nm.drop o' w').events.drop w'.events.length).map
        (fun e => (e.call, e.ok)) =
        nm.bitmaps.map (fun x => (NativeCall.deleteObject x, true)) ++
          [(NativeCall.destroyMenu nm.hmenu, true)] := by
      rw [List.map_drop, hp, List.append_assoc]
      rw [show w'.events.length =
        (w'.events.map (fun e => (e.call, e.ok))).length from
        (List.length_map _ _).symm]
      rw [List.drop_left]
    have hcount : ((nm.drop o' w').events.drop w'.events.length).countP
        (fun ev => ev.call == NativeCall.deleteObject b && ev.ok) =
        ((((nm.drop o' w').events.drop w'.events.length).map
          (fun e => (e.call, e.ok))).countP
          (fun p => p.1 == NativeCall.deleteObject b && p.2)) := by
      rw [List.countP_map]
      rfl
    rw [hcount, hd, List.countP_append, countP_delete]
    have h0 : ([(NativeCall.destroyMenu nm.hmenu, true)] :
        List (NativeCall × Bool)).countP
        (fun p => p.1 == NativeCall.deleteObject b && p.2) = 0 := by
      simp [List.countP_cons]
    rw [h0, List.count_eq_one_of_mem hnd hb]

theorem c7_bitmap_invariant_witness :
    (∀ b ∈ demoNM.bitmaps, ∃ ev ∈ demoW.events.drop World.init.events.length,
      ev.attachesBitmap b = true) ∧
    demoNM.bitmaps.Nodup ∧
    (∀ b ∈ demoNM.bitmaps,
      ((demoNM.drop allOk demoW).events.drop demoW.events.length).countP
        (fun ev => ev.call == NativeCall.deleteObject b && ev.ok) = 1) :=
  c7_bitmap_invariant allOk allOk demoMenu World.init demoNM demoW demo_build
    (fun c i => rfl)

/-- C8: any fatal native-call failure anywhere during the build walk
aborts the entire build with that error: a successful build's trace
contains no failed fatal call (every call outside the non-fatal
submenu-icon path succeeded), an error result wraps the index of a fatal
call that actually failed in the trace, and the builder never issues any
destruction call (`DeleteObject`/`DestroyMenu`), on the error path or
otherwise — already acquired native resources are not unwound by the
builder. -/
theorem c8_abort_no_unwind {T : Type} (o : Oracle) (m : Menu T) (w : World) :
    (∀ ev ∈ (NativeMenu.tryFrom o m w).2.events.drop w.events.length,
      ev.call.isDestroyCall = false) ∧
    (∀ e w', NativeMenu.tryFrom o m w = (Except.error e, w') →
      ∃ c i, e = TrayError.win32 i ∧ o c i = true ∧
        (⟨c, i, false⟩ : NEvent) ∈ w'.events.drop w.events.length ∧
        c.isSubmenuIconCall = false ∧ c.isDestroyCall = false) ∧
    (∀ nm w', NativeMenu.tryFrom o m w = (Except.ok nm, w') →
      ∀ ev ∈ w'.events.drop w.events.length,
        ev.call.isSubmenuIconCall = false → ev.ok = true) := by
  refine ⟨?_, ?_, ?_⟩
  · rcases hres : NativeMenu.tryFrom o m w with ⟨r, w'⟩
    dsimp only
    cases r with
    | ok nm =>
      obtain ⟨new, hev, -, -, -, -, -, hdes, -⟩ := tryFrom_ok_spec hres
      intro ev hev'
      rw [hev, List.drop_left] at hev'
      exact hdes ev hev'
    | error e =>
      obtain ⟨new, c, i, hev, -, -, -, -, -, hall⟩ := tryFrom_err_spec hres
      intro ev hev'
      rw [hev, List.drop_left] at hev'
      exact hall ev hev'
  · intro e w' He
    obtain ⟨new, c, i, hev, he, hc, hs, hd, hmem, -⟩ := tryFrom_err_spec He
    refine ⟨c, i, he, hc, ?_, hs, hd⟩
    rw [hev, List.drop_left]
    exact hmem
  · intro nm w' He
    obtain ⟨new, hev, -, -, -, -, -, -, hfat⟩ := tryFrom_ok_spec He
    intro ev hev'
    rw [hev, List.drop_left] at hev'
    exact hfat ev hev'

theorem c8_abort_no_unwind_witness :
    ∃ c i, TrayError.win32 0 = TrayError.win32 i ∧ allFail c i = true ∧
      (⟨c, i, false⟩ : NEvent) ∈ demoFailW.events.drop World.init.events.length ∧
      c.isSubmenuIconCall = false ∧ c.isDestroyCall = false :=
  (c8_abort_no_unwind allFail demoMenu World.init).2.1 (TrayError.win32 0) demoFailW
    demo_build_fail

theorem flattenSignals_replicate (n : Nat) :
    flattenSignals (List.replicate n (MenuItem.button "B" (0 : Nat) false none none)) =
      List.replicate n (0 : Nat) := by
  induction n with
  | zero => simp [flattenSignals]
  | succ k ih => simp [List.replicate_succ, flattenSignals, ih]

/-- C10: the public lookup accepts only a 16-bit unsigned id (`u16`,
embedded as `Fin 65536`): it is exactly indexing of the signal collection
at `id.val`, and `id.val < 65536` always, so `map` can read at most the
first 65536 entries — a signal stored at an index past 65535 is never the
one read out by any lookup index.  Construction, by contrast, assigns
button ids as an unbounded machine-sized integer: for every `n` there is
a buildable tree whose signal collection has exactly `n` entries. -/
theorem c10_u16_lookup_bound :
    (∀ (T : Type) (nm : NativeMenu T) (id : Fin 65536),
      nm.map id = nm.signals.get? id.val ∧ id.val < 65536) ∧
    (∀ n : Nat, ∃ (nm : NativeMenu Nat) (w' : World),
      NativeMenu.tryFrom allOk
        ⟨List.replicate n (MenuItem.button "B" 0 false none none)⟩ World.init =
        (Except.ok nm, w') ∧
      nm.signals.length = n) := by
  constructor
  · intro T nm id
    exact ⟨rfl, id.isLt⟩
  · intro n
    have Hsoft : ∀ c i, allOk c i = true → c.isSubmenuIconCall = true := by
      intro c i h
      simp [allOk] at h
    rcases h1 : createPopupMenu allOk (World.init.log LogMsg.creatingNativeMenu)
      with ⟨r1, w₁⟩
    cases r1 with
    | error e1 =>
      obtain ⟨-, -, hc⟩ := createPopupMenu_err h1
      simp [allOk] at hc
    | ok hmenu =>
      obtain ⟨bitmaps', w', hrec⟩ := add_all_soft_ok allOk Hsoft
        (List.replicate n (MenuItem.button "B" (0 : Nat) false none none))
        hmenu [] [] w₁
      refine ⟨⟨hmenu, [] ++ flattenSignals
        (List.replicate n (MenuItem.button "B" (0 : Nat) false none none)),
        bitmaps'⟩, w', ?_, ?_⟩
      · simp only [NativeMenu.tryFrom]
        rw [h1]
        dsimp only
        rw [hrec]
      · simp [flattenSignals_replicate]

end Betrayer
